import Mathlib

/-!
qrcodeine: request validation, rasterization and the PNG output sink.

A shallow embedding of `src/qrcodeine.cc`:

* `ValidateArgs` (lines 66-195) over a small model of the JavaScript values it inspects;
* the palette (lines 320-328) and the raster loops (lines 330-353) of `EncodePNG`, the
  loops once more with a log of their rounds;
* `Qrc_png_write_buffer` (lines 256-270) and the `Qrc_Png_Buffer` it grows.

C++ `int` values are `Int`, bytes (`unsigned char`) are `Nat` reduced modulo 256 where the
source truncates, `size_t` sums are reduced modulo `2 ^ 64`.  The `int` arithmetic of the
raster loops is exact: with a margin of at most 10 and a dot size of at most 50 none of its
expressions leaves the 32-bit range for a width below 46341, and libqrencode's widths end
at 177.  Every `for` loop is run by `forFrom` with a step budget computed from its bounds;
in the raster, running out of budget or indexing outside an array is a `Fault`.
-/

namespace Qrcodeine

/-! ## Loops and faults -/

/-- What can go wrong when the embedded code runs: a loop that does not finish within its
budget, an access outside the row buffer, an access outside the matrix. -/
inductive Fault where
  | fuel
  | rowIndex
  | dataIndex
  deriving DecidableEq, Repr

/-- The loop `for (i = start; i < bound; i += step) body`, entered at counter `i` with `fuel`
iterations left.  The test `i < bound` comes first, so a loop that has finished is never
charged for fuel. -/
def forFrom {σ : Type} (body : Int → σ → Except Fault σ) (bound step : Int) :
    Nat → Int → σ → Except Fault σ
  | fuel, i, s =>
    if i < bound then
      match fuel with
      | 0 => Except.error Fault.fuel
      | f + 1 =>
        match body i s with
        | Except.ok s1 => forFrom body bound step f (i + step) s1
        | Except.error e => Except.error e
    else Except.ok s

/-- The loop `for (i = start; i < bound; i += step) body`.  With `step ≥ 1` the counter
reaches `bound` after at most `bound - start` rounds, which is the budget given. -/
def forLoop {σ : Type} (start bound step : Int) (body : Int → σ → Except Fault σ) (s : σ) :
    Except Fault σ :=
  forFrom body bound step (bound - start).toNat start s

/-! ## Data model -/

/-- The fields of libqrencode's `QRcode` that the program reads: `version`, `width` and the
row-major `data` bytes (`width * width` of them). -/
structure QRcode where
  version : Int
  width : Int
  data : List Nat
  deriving Repr

/-- Modelled from the spec: `QR_ECLEVEL_L` of `qrencode.h`, the lowest level (the levels are
`L..H`, numbered `0..3`). -/
def QR_ECLEVEL_L : Int := 0

/-- Modelled from the spec: `QR_ECLEVEL_H` of `qrencode.h`, the highest level. -/
def QR_ECLEVEL_H : Int := 3

/-- Modelled from the spec: `QR_MODE_NUM` of `qrencode.h` (the modes are
`Numeric, AlphaNumeric, Byte, Kanji`, numbered `0..3`). -/
def QR_MODE_NUM : Int := 0

/-- Modelled from the spec: `QR_MODE_8` of `qrencode.h`, the byte mode. -/
def QR_MODE_8 : Int := 2

/-- Modelled from the spec: `QR_MODE_KANJI` of `qrencode.h`. -/
def QR_MODE_KANJI : Int := 3

/-- Line 18. -/
def QRSPEC_VERSION_MAX : Int := 40

/-- Line 21. -/
def QRC_MAX_SIZE : List Nat := [2938, 2319, 1655, 1268]

/-- Line 22. -/
def WHITE : Int := 16777216

/-- The record `Qrc_Params` (lines 24-33); `data` is the text as a byte string. -/
structure Qrc_Params where
  data : List Nat
  ec_level : Int
  mode : Int
  dot_size : Int
  margin : Int
  foreground_color : Int
  background_color : Int
  version : Int
  deriving DecidableEq, Repr

/-- The constructor of lines 34-47 called with the text only, as line 79 does: every other
field takes its default argument. -/
def Qrc_Params.new (p_data : List Nat) : Qrc_Params :=
  { data := p_data
    ec_level := QR_ECLEVEL_L
    mode := QR_MODE_8
    version := 0
    dot_size := 3
    margin := 4
    foreground_color := 0x0
    background_color := 0xffffff }

/-! ## The rasterizer of `EncodePNG` (lines 330-353) -/

/-- The byte count `(code->width + params->margin * 2) * params->dot_size` given to
`new unsigned char[...]` (line 338). -/
def imageSide (code : QRcode) (params : Qrc_Params) : Int :=
  (code.width + params.margin * 2) * params.dot_size

/-- The buffer of line 338: `n` bytes, not initialised; `junk` says what each byte holds. -/
def newRow (n : Int) (junk : Nat → Nat) : List Nat :=
  (List.range n.toNat).map junk

/-- The store `row[idx] = v`. -/
def writeRow (row : List Nat) (idx : Int) (v : Nat) : Except Fault (List Nat) :=
  if 0 ≤ idx ∧ idx < row.length then Except.ok (row.set idx.toNat v)
  else Except.error Fault.rowIndex

/-- The load `code->data[idx]`. -/
def readData (code : QRcode) (idx : Int) : Except Fault Nat :=
  if 0 ≤ idx then
    match code.data[idx.toNat]? with
    | some c => Except.ok c
    | none => Except.error Fault.dataIndex
  else Except.error Fault.dataIndex

/-- The body of the innermost loop, lines 343-347.  `x / dot_size` is C++ division, which
truncates; `<< 7` is taken in `int` and the store keeps the low eight bits. -/
def pixelStep (code : QRcode) (params : Qrc_Params) (y x d : Int) (row : List Nat) :
    Except Fault (List Nat) :=
  if y < 0 ∨ y > code.width - 1 ∨ x < 0 ∨ x > (code.width - 1) * params.dot_size then
    writeRow row (x + params.margin * params.dot_size + d) 0
  else
    match readData code (y * code.width + Int.tdiv x params.dot_size) with
    | Except.ok c => writeRow row (x + params.margin * params.dot_size + d) ((c <<< 7) % 256)
    | Except.error e => Except.error e

/-- The `d` loop of lines 342-348. -/
def dotLoop (code : QRcode) (params : Qrc_Params) (y x : Int) (row : List Nat) :
    Except Fault (List Nat) :=
  forLoop 0 params.dot_size 1 (fun d r => pixelStep code params y x d r) row

/-- The `x` loop of lines 341-349: one logical row written into the buffer. -/
def fillRow (code : QRcode) (params : Qrc_Params) (y : Int) (row : List Nat) :
    Except Fault (List Nat) :=
  forLoop (-(params.margin * params.dot_size)) ((code.width + params.margin) * params.dot_size)
    params.dot_size (fun x r => dotLoop code params y x r) row

/-- The loop of lines 350-352: `png_write_row` receives the buffer `dot_size` times; what it
has received so far is `out`. -/
def writeRows (params : Qrc_Params) (row : List Nat) (out : List (List Nat)) :
    Except Fault (List (List Nat)) :=
  forLoop 0 params.dot_size 1 (fun _ o => Except.ok (o ++ [row])) out

/-- The state carried round the `y` loop: the reused buffer and the rows handed to
`png_write_row` so far. -/
structure Raster where
  row : List Nat
  emitted : List (List Nat)
  deriving Repr

/-- The body of the `y` loop, lines 341-352. -/
def rowStep (code : QRcode) (params : Qrc_Params) (y : Int) (st : Raster) :
    Except Fault Raster :=
  match fillRow code params y st.row with
  | Except.ok r =>
    match writeRows params r st.emitted with
    | Except.ok o => Except.ok { row := r, emitted := o }
    | Except.error e => Except.error e
  | Except.error e => Except.error e

/-- Lines 338-353 of `EncodePNG`: the buffer is allocated and the `y` loop runs; the result
is the sequence of rows given to `png_write_row`, in order. -/
def rasterRows (code : QRcode) (params : Qrc_Params) (junk : Nat → Nat) :
    Except Fault (List (List Nat)) :=
  match forLoop (-params.margin) (code.width + params.margin) 1 (rowStep code params)
      { row := newRow (imageSide code params) junk, emitted := [] } with
  | Except.ok st => Except.ok st.emitted
  | Except.error e => Except.error e

/-- The byte of pixel column `px` in emitted row `py`, when there is one. -/
def pixelAt (rows : List (List Nat)) (px py : Nat) : Option Nat :=
  match rows[py]? with
  | some r => r[px]?
  | none => none

/-- Closed form of the byte the loops store for logical row `n` and logical column `k`, both
counted from the top-left corner of the image, the margin included. -/
def cellPixel (code : QRcode) (params : Qrc_Params) (n k : Nat) : Nat :=
  if (n : Int) - params.margin < 0 ∨ (n : Int) - params.margin > code.width - 1 ∨
      (k : Int) - params.margin < 0 ∨ (k : Int) - params.margin > code.width - 1 then 0
  else
    (code.data.getD (((n : Int) - params.margin) * code.width +
      ((k : Int) - params.margin)).toNat 0 <<< 7) % 256

/-- The buffer of `S` bytes after the first `t` pixels of logical row `n` have been stored
over the contents `old`. -/
def partialRow (code : QRcode) (params : Qrc_Params) (S n t : Nat) (old : List Nat) :
    List Nat :=
  (List.range S).map fun j =>
    if j < t then cellPixel code params n (j / params.dot_size.toNat) else old.getD j 0

/-- The buffer of `S` bytes once logical row `n` is complete. -/
def fullRow (code : QRcode) (params : Qrc_Params) (S n : Nat) : List Nat :=
  (List.range S).map fun j => cellPixel code params n (j / params.dot_size.toNat)

/-- Closed form of the whole raster: row `py` is the complete logical row `py / dot_size`. -/
def rasterSpec (code : QRcode) (params : Qrc_Params) : List (List Nat) :=
  (List.range (imageSide code params).toNat).map fun py =>
    fullRow code params (imageSide code params).toNat (py / params.dot_size.toNat)

/-- The width given to `png_set_IHDR` (line 330, third argument). -/
def ihdrWidth (code : QRcode) (params : Qrc_Params) : Int :=
  (code.width + params.margin * 2) * params.dot_size

/-- The height given to `png_set_IHDR` (line 330, fourth argument). -/
def ihdrHeight (code : QRcode) (params : Qrc_Params) : Int :=
  (code.width + params.margin * 2) * params.dot_size

/-- A 21 x 21 matrix with every module dark. -/
def darkCode : QRcode := { version := 1, width := 21, data := List.replicate 441 1 }

/-- The default parameters: margin 4, dot size 3. -/
def defaultParams : Qrc_Params := Qrc_Params.new [65]

/-- No margin, no magnification. -/
def plainParams : Qrc_Params := { Qrc_Params.new [65] with margin := 0, dot_size := 1 }

/-! ## `ValidateArgs` (lines 66-195) -/

/-- The JavaScript values `ValidateArgs` tells apart: `undefined`, a string (given by its
UTF-8 bytes, as `String::Utf8Value` yields them), a number whose value is the integer `n`,
an object (given by what `Get` returns for each property name), and everything else (`null`,
booleans, numbers with a fractional part, the number `-0`, which V8 counts neither as an
`Int32` nor as a `Uint32`, ...). -/
inductive Value where
  | undefined
  | string (utf8 : List Nat)
  | int (n : Int)
  | object (get : String → Value)
  | other

/-- V8 `Value::IsString`. -/
def Value.IsString : Value → Bool
  | Value.string _ => true
  | _ => false

/-- V8 `Value::IsUndefined`. -/
def Value.IsUndefined : Value → Bool
  | Value.undefined => true
  | _ => false

/-- V8 `Value::IsObject`. -/
def Value.IsObject : Value → Bool
  | Value.object _ => true
  | _ => false

/-- V8 `Value::IsInt32`: a number that is an integer of the signed 32-bit range. -/
def Value.IsInt32 : Value → Bool
  | Value.int n => decide (-2147483648 ≤ n ∧ n ≤ 2147483647)
  | _ => false

/-- V8 `Value::IsUint32`: a number that is an integer of the unsigned 32-bit range. -/
def Value.IsUint32 : Value → Bool
  | Value.int n => decide (0 ≤ n ∧ n ≤ 4294967295)
  | _ => false

/-- V8 `Value::IntegerValue`, which the source calls only on values that passed `IsInt32`
or `IsUint32`; there it is the number itself. -/
def Value.IntegerValue : Value → Int
  | Value.int n => n
  | _ => 0

/-- V8 `Object::Get`: the property, `undefined` when there is none. -/
def Value.Get : Value → String → Value
  | Value.object get, key => get key
  | _, _ => Value.undefined

/-- The exceptions `ValidateArgs` throws, with their messages. -/
inductive JsError where
  | TypeError (msg : String)
  | RangeError (msg : String)
  deriving DecidableEq, Repr

/-- Line 74, `std::string data(*v8::String::Utf8Value(args[0]))`: the constructor reads a C
string, so the text ends before the first zero byte. -/
def sourceString : Value → List Nat
  | Value.string utf8 => utf8.takeWhile (fun b => b != 0)
  | _ => []

/-- The lookup `QRC_MAX_SIZE[i]`; the source indexes with 0 (line 75) and with a level that
has passed the range check of line 108 (line 114). -/
def maxSize (i : Int) : Nat :=
  QRC_MAX_SIZE.getD i.toNat 0

/-- Lines 88-101. -/
def checkVersion (paramsObj : Value) (params : Qrc_Params) : Except JsError Qrc_Params :=
  let paramsVersion := paramsObj.Get "version"
  if !paramsVersion.IsUndefined then
    if !paramsVersion.IsInt32 then
      Except.error (JsError.TypeError "Wrong type for version")
    else if paramsVersion.IntegerValue < 1 ∨ paramsVersion.IntegerValue > QRSPEC_VERSION_MAX then
      Except.error (JsError.RangeError "Version out of range")
    else
      Except.ok { params with version := paramsVersion.IntegerValue }
  else Except.ok params

/-- Lines 102-120; `data` is the string of line 74. -/
def checkEcLevel (paramsObj : Value) (data : List Nat) (params : Qrc_Params) :
    Except JsError Qrc_Params :=
  let paramsEcLevel := paramsObj.Get "ecLevel"
  if !paramsEcLevel.IsUndefined then
    if !paramsEcLevel.IsInt32 then
      Except.error (JsError.TypeError "Wrong type for EC level")
    else if paramsEcLevel.IntegerValue < QR_ECLEVEL_L ∨
        paramsEcLevel.IntegerValue > QR_ECLEVEL_H then
      Except.error (JsError.RangeError "EC level out of range")
    else if (data.length : Int) > maxSize paramsEcLevel.IntegerValue then
      Except.error (JsError.RangeError "Source string length out of range")
    else
      Except.ok { params with ec_level := paramsEcLevel.IntegerValue }
  else Except.ok params

/-- Lines 121-135. -/
def checkMode (paramsObj : Value) (params : Qrc_Params) : Except JsError Qrc_Params :=
  let paramsMode := paramsObj.Get "mode"
  if !paramsMode.IsUndefined then
    if !paramsMode.IsInt32 then
      Except.error (JsError.TypeError "Wrong type for mode")
    else if paramsMode.IntegerValue < QR_MODE_NUM ∨ paramsMode.IntegerValue > QR_MODE_KANJI then
      Except.error (JsError.RangeError "Mode out of range")
    else
      Except.ok { params with mode := paramsMode.IntegerValue }
  else Except.ok params

/-- Lines 136-149. -/
def checkDotSize (paramsObj : Value) (params : Qrc_Params) : Except JsError Qrc_Params :=
  let paramsDotSize := paramsObj.Get "dotSize"
  if !paramsDotSize.IsUndefined then
    if !paramsDotSize.IsInt32 then
      Except.error (JsError.TypeError "Wrong type for dot size")
    else if paramsDotSize.IntegerValue < 1 ∨ paramsDotSize.IntegerValue > 50 then
      Except.error (JsError.RangeError "Dot size out of range")
    else
      Except.ok { params with dot_size := paramsDotSize.IntegerValue }
  else Except.ok params

/-- Lines 150-163. -/
def checkMargin (paramsObj : Value) (params : Qrc_Params) : Except JsError Qrc_Params :=
  let paramsMargin := paramsObj.Get "margin"
  if !paramsMargin.IsUndefined then
    if !paramsMargin.IsInt32 then
      Except.error (JsError.TypeError "Wrong type for margin size")
    else if paramsMargin.IntegerValue < 0 ∨ paramsMargin.IntegerValue > 10 then
      Except.error (JsError.RangeError "Margin size out of range")
    else
      Except.ok { params with margin := paramsMargin.IntegerValue }
  else Except.ok params

/-- Lines 164-177. -/
def checkFgColor (paramsObj : Value) (params : Qrc_Params) : Except JsError Qrc_Params :=
  let paramsFgColor := paramsObj.Get "foregroundColor"
  if !paramsFgColor.IsUndefined then
    if !paramsFgColor.IsUint32 then
      Except.error (JsError.TypeError "Wrong type for foreground color")
    else if paramsFgColor.IntegerValue < 0 ∨ paramsFgColor.IntegerValue ≥ WHITE then
      Except.error (JsError.RangeError "Foreground color out of range")
    else
      Except.ok { params with foreground_color := paramsFgColor.IntegerValue }
  else Except.ok params

/-- Lines 178-191. -/
def checkBgColor (paramsObj : Value) (params : Qrc_Params) : Except JsError Qrc_Params :=
  let paramsBgColor := paramsObj.Get "backgroundColor"
  if !paramsBgColor.IsUndefined then
    if !paramsBgColor.IsUint32 then
      Except.error (JsError.TypeError "Wrong type for background color")
    else if paramsBgColor.IntegerValue < 0 ∨ paramsBgColor.IntegerValue ≥ WHITE then
      Except.error (JsError.RangeError "Background color out of range")
    else
      Except.ok { params with background_color := paramsBgColor.IntegerValue }
  else Except.ok params

/-- Lines 87-191: the seven option blocks in source order, each entered only when the one
before it did not return. -/
def checkOptions (paramsObj : Value) (data : List Nat) (params : Qrc_Params) :
    Except JsError Qrc_Params :=
  (checkVersion paramsObj params).bind fun p1 =>
  (checkEcLevel paramsObj data p1).bind fun p2 =>
  (checkMode paramsObj p2).bind fun p3 =>
  (checkDotSize paramsObj p3).bind fun p4 =>
  (checkMargin paramsObj p4).bind fun p5 =>
  (checkFgColor paramsObj p5).bind fun p6 =>
  checkBgColor paramsObj p6

/-- `ValidateArgs` (lines 66-195) on the argument list `args`: the record it returns, or the
exception it throws when it returns `NULL`. -/
def ValidateArgs (args : List Value) : Except JsError Qrc_Params :=
  match args with
  | [] => Except.error (JsError.TypeError "No source string given")
  | text :: rest =>
    if !text.IsString then
      Except.error (JsError.TypeError "No source string given")
    else
      let data := sourceString text
      if data.length < 1 ∨ data.length > maxSize 0 then
        Except.error (JsError.RangeError "Source string length out of range")
      else
        let params := Qrc_Params.new data
        match rest with
        | [] => Except.ok params
        | paramsObj :: _ =>
          if !paramsObj.IsObject then
            Except.error (JsError.TypeError "Second argument must be an object")
          else checkOptions paramsObj data params

/-! ## The output sink (lines 54-64 and 256-270) -/

/-- The record `Qrc_Png_Buffer`: the block `data` points to (`NULL` is the empty block) and
the byte count `size`. -/
structure Qrc_Png_Buffer where
  data : List Nat
  size : Nat
  deriving DecidableEq, Repr

/-- The constructor of lines 57-60. -/
def Qrc_Png_Buffer.new : Qrc_Png_Buffer :=
  { data := [], size := 0 }

/-- How a write ends when it does not return: `png_error` after a failed `realloc`, or a
`memcpy` that leaves the block. -/
inductive PngFault where
  | writeError
  | memory
  deriving DecidableEq, Repr

/-- A successful `realloc(block, nsize)`: `nsize` bytes, the old contents kept up to the
smaller of the two sizes, the rest whatever `junk` says. -/
def realloc (block : List Nat) (nsize : Nat) (junk : Nat → Nat) : List Nat :=
  (List.range nsize).map fun i => block.getD i (junk i)

/-- The call `memcpy(block + offset, src, length)`. -/
def memcpy (block : List Nat) (offset : Nat) (src : List Nat) : Except PngFault (List Nat) :=
  if offset + src.length ≤ block.length then
    Except.ok (block.take offset ++ src ++ block.drop (offset + src.length))
  else Except.error PngFault.memory

/-- `Qrc_png_write_buffer` (lines 256-270) writing the bytes `src`; `reallocOk` says whether
`realloc` returns a block.  The two `size_t` sums wrap at `2 ^ 64`. -/
def Qrc_png_write_buffer (reallocOk : Bool) (junk : Nat → Nat) (b : Qrc_Png_Buffer)
    (src : List Nat) : Except PngFault Qrc_Png_Buffer :=
  let nsize := (b.size + src.length) % 2 ^ 64
  if !reallocOk then Except.error PngFault.writeError
  else
    match memcpy (realloc b.data nsize junk) b.size src with
    | Except.ok block => Except.ok { data := block, size := (b.size + src.length) % 2 ^ 64 }
    | Except.error e => Except.error e

/-- A run of writes, each with the outcome of its `realloc` and its bytes; the run stops at
the first write that does not return. -/
def writeAll (junk : Nat → Nat) : Qrc_Png_Buffer → List (Bool × List Nat) →
    Except PngFault Qrc_Png_Buffer
  | b, [] => Except.ok b
  | b, (reallocOk, src) :: rest =>
    match Qrc_png_write_buffer reallocOk junk b src with
    | Except.ok b1 => writeAll junk b1 rest
    | Except.error e => Except.error e

/-! ## The validator's contract, in the words of the specification -/

/-- An optional field that is absent, or present with the right primitive type (`isType`)
and a value in `[lo, hi]`. -/
def Value.absentOrIn (isType : Value → Bool) (lo hi : Int) (v : Value) : Prop :=
  v.IsUndefined = true ∨ (isType v = true ∧ lo ≤ v.IntegerValue ∧ v.IntegerValue ≤ hi)

/-- An optional field that is absent, or present with a value in `[lo, hi]`. -/
def Value.absentOrBetween (lo hi : Int) (v : Value) : Prop :=
  v.IsUndefined = true ∨ (lo ≤ v.IntegerValue ∧ v.IntegerValue ≤ hi)

/-- The value a field ends with: the default when it is not specified, else what was
specified. -/
def Value.orDefault (v : Value) (dflt : Int) : Int :=
  if v.IsUndefined then dflt else v.IntegerValue

/-- Every option is absent or valid, and the text fits the requested level: `version` in
[1,40], `ecLevel` in [0,3] with the text no longer than that level's maximum, `mode` in
[0,3], `dotSize` in [1,50], `margin` in [0,10], both colours unsigned and below `2 ^ 24`. -/
def optionsValid (data : List Nat) (paramsObj : Value) : Prop :=
  (paramsObj.Get "version").absentOrIn Value.IsInt32 1 40 ∧
  ((paramsObj.Get "ecLevel").absentOrIn Value.IsInt32 0 3 ∧
    ((paramsObj.Get "ecLevel").IsUndefined = false →
      data.length ≤ maxSize (paramsObj.Get "ecLevel").IntegerValue)) ∧
  (paramsObj.Get "mode").absentOrIn Value.IsInt32 0 3 ∧
  (paramsObj.Get "dotSize").absentOrIn Value.IsInt32 1 50 ∧
  (paramsObj.Get "margin").absentOrIn Value.IsInt32 0 10 ∧
  (paramsObj.Get "foregroundColor").absentOrIn Value.IsUint32 0 16777215 ∧
  (paramsObj.Get "backgroundColor").absentOrIn Value.IsUint32 0 16777215

/-- The record the specification asks for: unspecified fields take the defaults `ecLevel = L`,
`mode = Byte`, `version = 0`, `dotSize = 3`, `margin = 4`, `foreground = 0x000000`,
`background = 0xFFFFFF`; a specified field holds what was specified. -/
def requested (data : List Nat) (paramsObj : Value) : Qrc_Params :=
  { data := data
    ec_level := (paramsObj.Get "ecLevel").orDefault 0
    mode := (paramsObj.Get "mode").orDefault 2
    version := (paramsObj.Get "version").orDefault 0
    dot_size := (paramsObj.Get "dotSize").orDefault 3
    margin := (paramsObj.Get "margin").orDefault 4
    foreground_color := (paramsObj.Get "foregroundColor").orDefault 0x000000
    background_color := (paramsObj.Get "backgroundColor").orDefault 0xFFFFFF }

/-- The property lookup of an object with the listed properties and no others. -/
def fieldsOf (fields : List (String × Value)) : String → Value :=
  fun key => (fields.lookup key).getD Value.undefined

/-! ## The palette of `EncodePNG` (lines 320-328) -/

/-- The record `png_color` of libpng: three bytes. -/
structure png_color where
  red : Nat
  green : Nat
  blue : Nat
  deriving DecidableEq, Repr

/-- The conversion of an `int` to `png_byte` that an assignment makes. -/
def toByte (v : Int) : Nat :=
  (v % 256).toNat

/-- Lines 321-323 (and 324-326) for the colour `c`: `c >> 16 & 0xFF`, `c >> 8 & 0xFF` and
`c & 0xFF`, the shift binding tighter than the mask. -/
def paletteEntry (c : Int) : png_color :=
  { red := toByte (Int.land (c >>> 16) 0xFF)
    green := toByte (Int.land (c >>> 8) 0xFF)
    blue := toByte (Int.land c 0xFF) }

/-- The array `png_plte` handed to `png_set_PLTE` with the count 2 (lines 320-328): entry 0
from the background colour, entry 1 from the foreground colour. -/
def png_plte (params : Qrc_Params) : List png_color :=
  [paletteEntry params.background_color, paletteEntry params.foreground_color]

/-! ## The raster loops with a log of their rounds -/

/-- One round of the innermost loop (lines 342-348): the values of `y`, `x` and `d`. -/
structure Round where
  y : Int
  x : Int
  d : Int
  deriving DecidableEq, Repr

/-- The index of the store of lines 344 and 346, `x + params->margin * params->dot_size + d`. -/
def Round.writeIndex (params : Qrc_Params) (r : Round) : Int :=
  r.x + params.margin * params.dot_size + r.d

/-- The index of the load of line 346, `y * code->width + x/params->dot_size`. -/
def Round.readIndex (code : QRcode) (params : Qrc_Params) (r : Round) : Int :=
  r.y * code.width + Int.tdiv r.x params.dot_size

/-- The test of line 343: the round is on the margin branch. -/
def Round.onMargin (code : QRcode) (params : Qrc_Params) (r : Round) : Prop :=
  r.y < 0 ∨ r.y > code.width - 1 ∨ r.x < 0 ∨ r.x > (code.width - 1) * params.dot_size

/-- The row buffer together with the rounds made so far. -/
structure Logged where
  row : List Nat
  rounds : List Round
  deriving Repr

/-- The body of the innermost loop (`pixelStep`), the round noted in the log. -/
def pixelStepLogged (code : QRcode) (params : Qrc_Params) (y x d : Int) (st : Logged) :
    Except Fault Logged :=
  match pixelStep code params y x d st.row with
  | Except.ok r => Except.ok { row := r, rounds := st.rounds ++ [{ y := y, x := x, d := d }] }
  | Except.error e => Except.error e

/-- The `d` loop of lines 342-348, logged. -/
def dotLoopLogged (code : QRcode) (params : Qrc_Params) (y x : Int) (st : Logged) :
    Except Fault Logged :=
  forLoop 0 params.dot_size 1 (fun d s => pixelStepLogged code params y x d s) st

/-- The `x` loop of lines 341-349, logged. -/
def fillRowLogged (code : QRcode) (params : Qrc_Params) (y : Int) (st : Logged) :
    Except Fault Logged :=
  forLoop (-(params.margin * params.dot_size)) ((code.width + params.margin) * params.dot_size)
    params.dot_size (fun x s => dotLoopLogged code params y x s) st

/-- The `y` loop of lines 340-353 with its `x` and `d` loops, logged: every round of the
innermost loop, in order.  The `png_write_row` loop indexes nothing and is left out. -/
def rasterRounds (code : QRcode) (params : Qrc_Params) (junk : Nat → Nat) :
    Except Fault (List Round) :=
  match forLoop (-params.margin) (code.width + params.margin) 1
      (fun y s => fillRowLogged code params y s)
      { row := newRow (imageSide code params) junk, rounds := [] } with
  | Except.ok st => Except.ok st.rounds
  | Except.error e => Except.error e

/-- Closed form of the rounds of one `d` loop, at logical row `n` and logical column `k`. -/
def roundsOfDot (m ds n k : Nat) : List Round :=
  (List.range ds).map fun (d : Nat) =>
    { y := (n : Int) - m, x := (k : Int) * ds - m * ds, d := (d : Int) }

/-- Closed form of the rounds of one logical row. -/
def roundsOfRow (W m ds n : Nat) : List Round :=
  (List.range (W + 2 * m)).flatMap (roundsOfDot m ds n)

/-- Closed form of all rounds. -/
def roundsOfRaster (W m ds : Nat) : List Round :=
  (List.range (W + 2 * m)).flatMap (roundsOfRow W m ds)

/-! ## The order of the validator's checks, in the words of the specification -/

/-- A field is present when it is not `undefined`. -/
def Value.present (v : Value) : Bool :=
  !v.IsUndefined

/-- The type constraint of a field, with its error: violated when the field is present and
not of the type. -/
def typeCheck (isType : Value → Bool) (v : Value) (msg : String) : Bool × JsError :=
  (v.present && !isType v, JsError.TypeError msg)

/-- The range constraint of a field, with its error: violated when the field is present and
its value is outside `[lo, hi]`. -/
def rangeCheck (lo hi : Int) (v : Value) (msg : String) : Bool × JsError :=
  (v.present && (decide (v.IntegerValue < lo) || decide (hi < v.IntegerValue)),
    JsError.RangeError msg)

/-- The constraints on the options, in the order the specification gives: `version`,
`ecLevel` (type, range, then the text length against that level's maximum), `mode`,
`dotSize`, `margin`, `foregroundColor`, `backgroundColor`, the type of a field before its
range.  Each entry says whether the constraint is violated and which error belongs to it. -/
def optionViolations (data : List Nat) (paramsObj : Value) : List (Bool × JsError) :=
  [ typeCheck Value.IsInt32 (paramsObj.Get "version") "Wrong type for version",
    rangeCheck 1 40 (paramsObj.Get "version") "Version out of range",
    typeCheck Value.IsInt32 (paramsObj.Get "ecLevel") "Wrong type for EC level",
    rangeCheck 0 3 (paramsObj.Get "ecLevel") "EC level out of range",
    ((paramsObj.Get "ecLevel").present &&
        decide (maxSize (paramsObj.Get "ecLevel").IntegerValue < data.length),
      JsError.RangeError "Source string length out of range"),
    typeCheck Value.IsInt32 (paramsObj.Get "mode") "Wrong type for mode",
    rangeCheck 0 3 (paramsObj.Get "mode") "Mode out of range",
    typeCheck Value.IsInt32 (paramsObj.Get "dotSize") "Wrong type for dot size",
    rangeCheck 1 50 (paramsObj.Get "dotSize") "Dot size out of range",
    typeCheck Value.IsInt32 (paramsObj.Get "margin") "Wrong type for margin size",
    rangeCheck 0 10 (paramsObj.Get "margin") "Margin size out of range",
    typeCheck Value.IsUint32 (paramsObj.Get "foregroundColor")
      "Wrong type for foreground color",
    rangeCheck 0 16777215 (paramsObj.Get "foregroundColor") "Foreground color out of range",
    typeCheck Value.IsUint32 (paramsObj.Get "backgroundColor")
      "Wrong type for background color",
    rangeCheck 0 16777215 (paramsObj.Get "backgroundColor") "Background color out of range" ]

/-- All constraints on a call, in order: the text is a string, its length is in [1, 2938],
the options (when given) are an object, then the constraints on the options. -/
def violations (args : List Value) : List (Bool × JsError) :=
  [ (decide (args.length < 1) || !(args.headD Value.undefined).IsString,
      JsError.TypeError "No source string given"),
    (decide ((sourceString (args.headD Value.undefined)).length < 1) ||
        decide (2938 < (sourceString (args.headD Value.undefined)).length),
      JsError.RangeError "Source string length out of range"),
    (decide (1 < args.length) && !(args.getD 1 Value.undefined).IsObject,
      JsError.TypeError "Second argument must be an object") ]
  ++ optionViolations (sourceString (args.headD Value.undefined))
      (args.getD 1 Value.undefined)

/-- The error of the first violated constraint of an ordered list, when there is one. -/
def firstViolation (checks : List (Bool × JsError)) : Option JsError :=
  (checks.find? fun c => c.1).map fun c => c.2

/-- What an ordered list of constraints prescribes: the error of the first violated one and
no value, or the value when none is violated. -/
def outcome {α : Type} (checks : List (Bool × JsError)) (a : α) : Except JsError α :=
  match firstViolation checks with
  | some e => Except.error e
  | none => Except.ok a

/-- The seven option names in the order they are checked. -/
def fieldOrder : List String :=
  ["version", "ecLevel", "mode", "dotSize", "margin", "foregroundColor", "backgroundColor"]

/-- The number of constraints of `violations` that concern the text, the options object and
the first `k` option fields. -/
def checksThrough (k : Nat) : Nat :=
  [3, 5, 8, 10, 12, 14, 16, 18].getD k 18

/-! ## Text length and specified options, in the words of the specification -/

/-- The length of a text: the number of bytes of its UTF-8 form. -/
def textLength (utf8 : List Nat) : Nat :=
  utf8.length

/-- The C string inside a text: its bytes before the first zero byte. -/
def cString (utf8 : List Nat) : List Nat :=
  utf8.takeWhile fun b => b != 0

/-- An option field as a caller gives it: not specified, or specified as the integer `n`. -/
def Value.ofOption : Option Int → Value
  | none => Value.undefined
  | some n => Value.int n

/-! ## Loop rules -/

theorem forFrom_exit {σ : Type} (body : Int → σ → Except Fault σ) (bound step : Int)
    (fuel : Nat) (i : Int) (s : σ) (h : ¬ i < bound) :
    forFrom body bound step fuel i s = Except.ok s := by
  unfold forFrom
  simp [h]

theorem forFrom_round {σ : Type} (body : Int → σ → Except Fault σ) (bound step : Int)
    (f : Nat) (i : Int) (s s1 : σ) (h : i < bound) (hb : body i s = Except.ok s1) :
    forFrom body bound step (f + 1) i s = forFrom body bound step f (i + step) s1 := by
  rw [forFrom]
  simp [h, hb]

/-- Invariant rule for a loop that makes exactly `N` rounds: the budget is not exhausted and
the invariant holds of the final state. -/
theorem forFrom_rounds {σ : Type} (body : Int → σ → Except Fault σ) (bound step : Int) :
    ∀ (N fuel : Nat) (start : Int) (s : σ) (I : Nat → σ → Prop), N ≤ fuel →
      (∀ n, n < N → start + n * step < bound) → ¬ start + N * step < bound → I 0 s →
      (∀ n t, n < N → I n t → ∃ t1, body (start + n * step) t = Except.ok t1 ∧ I (n + 1) t1) →
      ∃ t, forFrom body bound step fuel start s = Except.ok t ∧ I N t := by
  intro N
  induction N with
  | zero =>
    intro fuel start s I _ _ hge h0 _
    refine ⟨s, forFrom_exit body bound step fuel start s ?_, h0⟩
    simpa using hge
  | succ N ih =>
    intro fuel start s I hfuel hlt hge h0 hstep
    obtain ⟨f, rfl⟩ : ∃ f, fuel = f + 1 := ⟨fuel - 1, by omega⟩
    have hs : start < bound := by simpa using hlt 0 (Nat.succ_pos N)
    obtain ⟨s1, hb, h1⟩ := hstep 0 s (Nat.succ_pos N) h0
    simp only [Nat.cast_zero, zero_mul, add_zero] at hb
    rw [forFrom_round body bound step f start s s1 hs hb]
    exact ih f (start + step) s1 (fun n t => I (n + 1) t) (by omega)
      (fun n hn => by
        have := hlt (n + 1) (by omega)
        push_cast at this
        linarith)
      (by
        intro hcon
        apply hge
        push_cast
        linarith)
      h1
      (fun n t hn hI => by
        obtain ⟨t1, e1, i1⟩ := hstep (n + 1) t (by omega) hI
        refine ⟨t1, ?_, i1⟩
        rw [← e1]
        congr 1
        push_cast
        ring)

theorem forLoop_rounds {σ : Type} (body : Int → σ → Except Fault σ) (start bound step : Int)
    (N : Nat) (s : σ) (I : Nat → σ → Prop) (hfuel : (N : Int) ≤ bound - start)
    (hlt : ∀ n, n < N → start + n * step < bound) (hge : ¬ start + N * step < bound)
    (h0 : I 0 s)
    (hstep : ∀ n t, n < N → I n t →
      ∃ t1, body (start + n * step) t = Except.ok t1 ∧ I (n + 1) t1) :
    ∃ t, forLoop start bound step body s = Except.ok t ∧ I N t := by
  unfold forLoop
  exact forFrom_rounds body bound step N _ start s I (by omega) hlt hge h0 hstep

/-- The innermost body at logical row `n`, logical column `k`, dot `d`: one store of the
closed-form byte at pixel `k * ds + d`. -/
theorem pixelStep_eq (code : QRcode) (params : Qrc_Params) (W m ds : Nat)
    (hW : code.width = W) (hm : params.margin = m) (hds : params.dot_size = ds)
    (hds1 : 1 ≤ ds) (hdata : code.data.length = W * W)
    (n k d : Nat) (hk : k < W + 2 * m) (hd : d < ds)
    (row : List Nat) (hrow : row.length = (W + 2 * m) * ds) :
    pixelStep code params ((n : Int) - m) ((k : Int) * ds - m * ds) d row
      = Except.ok (row.set (k * ds + d) (cellPixel code params n k)) := by
  have hidx : (k : Int) * ds - m * ds + params.margin * params.dot_size + d
      = ((k * ds + d : Nat) : Int) := by
    rw [hm, hds]; push_cast; ring
  have hlt : k * ds + d < (W + 2 * m) * ds := by
    have : (k + 1) * ds ≤ (W + 2 * m) * ds := Nat.mul_le_mul_right ds (by omega)
    rw [Nat.add_mul] at this
    omega
  have hwr : ∀ v, writeRow row ((k : Int) * ds - m * ds + params.margin * params.dot_size + d) v
      = Except.ok (row.set (k * ds + d) v) := by
    intro v
    rw [hidx]
    unfold writeRow
    rw [if_pos ⟨Int.natCast_nonneg _, by rw [hrow]; exact_mod_cast hlt⟩, Int.toNat_ofNat]
  have hx : (k : Int) * ds - m * ds = ((k : Int) - m) * ds := by ring
  have hds0 : (0 : Int) < ds := by exact_mod_cast hds1
  have hxneg : ((k : Int) * ds - m * ds < 0) ↔ ((k : Int) - m < 0) := by
    rw [hx]
    constructor
    · intro h
      by_contra hc
      push_neg at hc
      have := mul_nonneg hc hds0.le
      linarith
    · intro h
      exact mul_neg_of_neg_of_pos h hds0
  have hxbig : ((k : Int) * ds - m * ds > ((W : Int) - 1) * ds) ↔ ((k : Int) - m > (W : Int) - 1) := by
    rw [hx]
    constructor
    · intro h
      exact lt_of_mul_lt_mul_right h hds0.le
    · intro h
      exact mul_lt_mul_of_pos_right h hds0
  have hcond : ((n : Int) - m < 0 ∨ (n : Int) - m > (W : Int) - 1 ∨
      (k : Int) * ds - m * ds < 0 ∨ (k : Int) * ds - m * ds > ((W : Int) - 1) * ds) ↔
      ((n : Int) - m < 0 ∨ (n : Int) - m > (W : Int) - 1 ∨
      (k : Int) - m < 0 ∨ (k : Int) - m > (W : Int) - 1) := by
    rw [hxneg, hxbig]
  unfold pixelStep cellPixel
  rw [hW, hds, hm]
  by_cases hc : (n : Int) - m < 0 ∨ (n : Int) - m > (W : Int) - 1 ∨
      (k : Int) - m < 0 ∨ (k : Int) - m > (W : Int) - 1
  · rw [if_pos hc, if_pos (hcond.mpr hc)]
    have := hwr 0
    rw [hm, hds] at this
    exact this
  · rw [if_neg hc, if_neg (fun h => hc (hcond.mp h))]
    push_neg at hc
    obtain ⟨h1, h2, h3, h4⟩ := hc
    have hdiv : Int.tdiv ((k : Int) * ds - m * ds) ds = (k : Int) - m := by
      rw [hx]
      exact Int.mul_tdiv_cancel _ (by omega)
    rw [hdiv]
    obtain ⟨a, ha⟩ : ∃ a : Nat, (n : Int) - m = a := ⟨n - m, by omega⟩
    obtain ⟨b, hb⟩ : ∃ b : Nat, (k : Int) - m = b := ⟨k - m, by omega⟩
    have haW : a < W := by omega
    have hbW : b < W := by omega
    rw [ha, hb]
    have hin : a * W + b < code.data.length := by
      rw [hdata]
      have : (a + 1) * W ≤ W * W := Nat.mul_le_mul_right W (by omega)
      rw [Nat.add_mul] at this
      omega
    have hcast : (a : Int) * W + b = ((a * W + b : Nat) : Int) := by push_cast; ring
    rw [hcast]
    unfold readData
    rw [if_pos (Int.natCast_nonneg _)]
    simp only [Int.toNat_ofNat]
    rw [List.getElem?_eq_getElem hin]
    simp only
    have := hwr ((code.data[a * W + b] <<< 7) % 256)
    rw [hm, hds] at this
    rw [this]
    congr 2
    simp [List.getD, List.getElem?_eq_getElem hin]

theorem partialRow_length (code : QRcode) (params : Qrc_Params) (S n t : Nat)
    (old : List Nat) : (partialRow code params S n t old).length = S := by
  simp [partialRow]

theorem partialRow_zero (code : QRcode) (params : Qrc_Params) (n : Nat) (old : List Nat) :
    partialRow code params old.length n 0 old = old := by
  apply List.ext_getElem?
  intro j
  unfold partialRow
  rw [List.getElem?_map]
  by_cases hj : j < old.length
  · rw [List.getElem?_range hj]
    simp [List.getD, List.getElem?_eq_getElem hj]
  · rw [List.getElem?_eq_none (by simpa using hj), List.getElem?_eq_none (by simpa using hj)]
    rfl

theorem partialRow_set (code : QRcode) (params : Qrc_Params) (S n t : Nat) (old : List Nat)
    (ht : t < S) :
    (partialRow code params S n t old).set t
        (cellPixel code params n (t / params.dot_size.toNat))
      = partialRow code params S n (t + 1) old := by
  apply List.ext_getElem?
  intro j
  rw [List.getElem?_set]
  unfold partialRow
  simp only [List.getElem?_map, List.length_map, List.length_range]
  by_cases hj : j < S
  · rw [List.getElem?_range hj]
    by_cases hjt : t = j
    · subst hjt
      simp [ht]
    · rw [if_neg hjt]
      have : (j < t + 1) ↔ (j < t) := by omega
      simp [this]
  · rw [List.getElem?_eq_none (by simpa using hj)]
    have : t ≠ j := by omega
    simp [this]

theorem partialRow_full (code : QRcode) (params : Qrc_Params) (S n : Nat) (old : List Nat) :
    partialRow code params S n S old = fullRow code params S n := by
  unfold partialRow fullRow
  apply List.map_congr_left
  intro j hj
  rw [if_pos (List.mem_range.mp hj)]

theorem mul_add_div_self (k ds d : Nat) (hd : d < ds) : (k * ds + d) / ds = k := by
  rw [Nat.add_comm, Nat.add_mul_div_right d k (by omega), Nat.div_eq_of_lt hd, Nat.zero_add]

/-- The `d` loop at logical row `n`, logical column `k`: pixels `k * ds .. (k + 1) * ds - 1`
are stored. -/
theorem dotLoop_eq (code : QRcode) (params : Qrc_Params) (W m ds : Nat)
    (hW : code.width = W) (hm : params.margin = m) (hds : params.dot_size = ds)
    (hds1 : 1 ≤ ds) (hdata : code.data.length = W * W)
    (n k : Nat) (hk : k < W + 2 * m) (old : List Nat) :
    dotLoop code params ((n : Int) - m) ((k : Int) * ds - m * ds)
        (partialRow code params ((W + 2 * m) * ds) n (k * ds) old)
      = Except.ok (partialRow code params ((W + 2 * m) * ds) n ((k + 1) * ds) old) := by
  unfold dotLoop
  obtain ⟨t, ht, hI⟩ := forLoop_rounds
    (fun d r => pixelStep code params ((n : Int) - m) ((k : Int) * ds - m * ds) d r)
    0 params.dot_size 1 ds (partialRow code params ((W + 2 * m) * ds) n (k * ds) old)
    (fun d r => r = partialRow code params ((W + 2 * m) * ds) n (k * ds + d) old)
    (by rw [hds]; simp)
    (fun d hd => by rw [hds]; simpa using hd)
    (by rw [hds]; simp)
    rfl
    (fun d r hd hr => by
      subst hr
      refine ⟨_, ?_, rfl⟩
      simp only [zero_add, mul_one]
      rw [pixelStep_eq code params W m ds hW hm hds hds1 hdata n k d hk hd _
        (partialRow_length _ _ _ _ _ _)]
      have hlt : k * ds + d < (W + 2 * m) * ds := by
        have : (k + 1) * ds ≤ (W + 2 * m) * ds := Nat.mul_le_mul_right ds (by omega)
        rw [Nat.add_mul] at this
        omega
      have := partialRow_set code params ((W + 2 * m) * ds) n (k * ds + d) old hlt
      rw [hds, Int.toNat_ofNat, mul_add_div_self k ds d hd] at this
      rw [this, Nat.add_assoc])
  rw [ht, hI, show k * ds + ds = (k + 1) * ds from (Nat.succ_mul k ds).symm]

/-- The `x` loop at logical row `n`: whatever the buffer held, it now holds the complete
logical row. -/
theorem fillRow_eq (code : QRcode) (params : Qrc_Params) (W m ds : Nat)
    (hW : code.width = W) (hm : params.margin = m) (hds : params.dot_size = ds)
    (hds1 : 1 ≤ ds) (hdata : code.data.length = W * W)
    (n : Nat) (row : List Nat) (hrow : row.length = (W + 2 * m) * ds) :
    fillRow code params ((n : Int) - m) row
      = Except.ok (fullRow code params ((W + 2 * m) * ds) n) := by
  unfold fillRow
  have hds0 : (0 : Int) < ds := by exact_mod_cast hds1
  obtain ⟨t, ht, hI⟩ := forLoop_rounds
    (fun x r => dotLoop code params ((n : Int) - m) x r)
    (-(params.margin * params.dot_size)) ((code.width + params.margin) * params.dot_size)
    params.dot_size (W + 2 * m) row
    (fun k r => r = partialRow code params ((W + 2 * m) * ds) n (k * ds) row)
    (by
      rw [hW, hm, hds]
      have : ((W + 2 * m : Nat) : Int) * 1 ≤ ((W + 2 * m : Nat) : Int) * ds :=
        mul_le_mul_of_nonneg_left (by omega) (Int.natCast_nonneg _)
      push_cast at this ⊢
      linarith)
    (fun k hk => by
      rw [hW, hm, hds]
      have : ((k : Int) - m) * ds < ((W : Int) + m) * ds :=
        mul_lt_mul_of_pos_right (by omega) hds0
      linarith)
    (by
      rw [hW, hm, hds]
      push_cast
      intro hcon
      linarith)
    (by
      show row = partialRow code params ((W + 2 * m) * ds) n (0 * ds) row
      rw [Nat.zero_mul, ← hrow]
      exact (partialRow_zero code params n row).symm)
    (fun k r hk hr => by
      subst hr
      refine ⟨_, ?_, rfl⟩
      have hx : -(params.margin * params.dot_size) + (k : Int) * params.dot_size
          = (k : Int) * ds - m * ds := by
        rw [hm, hds]; ring
      rw [hx]
      exact dotLoop_eq code params W m ds hW hm hds hds1 hdata n k hk row)
  rw [ht, hI, partialRow_full]

/-- The loop of lines 350-352 after `n` logical rows: `ds` more copies of the buffer are
appended, which makes the first `(n + 1) * ds` rows of the closed form. -/
theorem writeRows_eq (code : QRcode) (params : Qrc_Params) (S ds n : Nat)
    (hds : params.dot_size = ds) :
    writeRows params (fullRow code params S n)
        ((List.range (n * ds)).map fun py => fullRow code params S (py / ds))
      = Except.ok ((List.range ((n + 1) * ds)).map fun py => fullRow code params S (py / ds)) := by
  unfold writeRows
  obtain ⟨t, ht, hI⟩ := forLoop_rounds
    (fun (_ : Int) (o : List (List Nat)) => Except.ok (o ++ [fullRow code params S n]))
    0 params.dot_size 1 ds
    ((List.range (n * ds)).map fun py => fullRow code params S (py / ds))
    (fun d o => o = (List.range (n * ds + d)).map fun py => fullRow code params S (py / ds))
    (by rw [hds]; simp)
    (fun d hd => by rw [hds]; simpa using hd)
    (by rw [hds]; simp)
    rfl
    (fun d o hd ho => by
      subst ho
      refine ⟨_, rfl, ?_⟩
      show _ = (List.range (n * ds + (d + 1))).map fun py => fullRow code params S (py / ds)
      rw [← Nat.add_assoc, List.range_succ, List.map_append, List.map_singleton,
        mul_add_div_self n ds d hd])
  rw [ht, hI, show n * ds + ds = (n + 1) * ds from (Nat.succ_mul n ds).symm]

/-- The body of the `y` loop at logical row `n`. -/
theorem rowStep_eq (code : QRcode) (params : Qrc_Params) (W m ds : Nat)
    (hW : code.width = W) (hm : params.margin = m) (hds : params.dot_size = ds)
    (hds1 : 1 ≤ ds) (hdata : code.data.length = W * W)
    (n : Nat) (row : List Nat) (hrow : row.length = (W + 2 * m) * ds) :
    rowStep code params ((n : Int) - m)
        { row := row
          emitted := (List.range (n * ds)).map fun py =>
            fullRow code params ((W + 2 * m) * ds) (py / ds) }
      = Except.ok
        { row := fullRow code params ((W + 2 * m) * ds) n
          emitted := (List.range ((n + 1) * ds)).map fun py =>
            fullRow code params ((W + 2 * m) * ds) (py / ds) } := by
  unfold rowStep
  simp only
  rw [fillRow_eq code params W m ds hW hm hds hds1 hdata n row hrow]
  simp only
  rw [writeRows_eq code params _ ds n hds]

theorem imageSide_toNat (code : QRcode) (params : Qrc_Params) (W m ds : Nat)
    (hW : code.width = W) (hm : params.margin = m) (hds : params.dot_size = ds) :
    (imageSide code params).toNat = (W + 2 * m) * ds := by
  unfold imageSide
  rw [hW, hm, hds]
  have : ((W : Int) + m * 2) * ds = (((W + 2 * m) * ds : Nat) : Int) := by push_cast; ring
  rw [this, Int.toNat_ofNat]

/-- The loops of lines 340-353 in closed form, sizes given as natural numbers. -/
theorem rasterRows_eq_nat (code : QRcode) (params : Qrc_Params) (junk : Nat → Nat)
    (W m ds : Nat) (hW : code.width = W) (hm : params.margin = m)
    (hds : params.dot_size = ds) (hds1 : 1 ≤ ds) (hdata : code.data.length = W * W) :
    rasterRows code params junk = Except.ok (rasterSpec code params) := by
  have hS := imageSide_toNat code params W m ds hW hm hds
  unfold rasterRows rasterSpec
  obtain ⟨t, ht, hI⟩ := forLoop_rounds (rowStep code params)
    (-params.margin) (code.width + params.margin) 1 (W + 2 * m)
    { row := newRow (imageSide code params) junk, emitted := [] }
    (fun n st => st.row.length = (W + 2 * m) * ds ∧
      st.emitted = (List.range (n * ds)).map fun py =>
        fullRow code params ((W + 2 * m) * ds) (py / ds))
    (by rw [hW, hm]; push_cast; linarith)
    (fun n hn => by rw [hW, hm]; omega)
    (by rw [hW, hm]; push_cast; intro hcon; linarith)
    ⟨by simp [newRow, hS], by simp⟩
    (fun n st hn hst => by
      obtain ⟨row, out⟩ := st
      obtain ⟨h1, h2⟩ := hst
      simp only at h1 h2
      subst h2
      have hy : -params.margin + (n : Int) * 1 = (n : Int) - m := by rw [hm]; ring
      rw [hy, rowStep_eq code params W m ds hW hm hds hds1 hdata n row h1]
      exact ⟨_, rfl, by simp [fullRow], rfl⟩)
  rw [ht]
  simp only
  rw [hI.2, hS, hds, Int.toNat_ofNat]

/-- The loops of lines 340-353 in closed form: for a matrix of `width * width` bytes, a
margin that is not negative and a dot size of at least one, the loops finish, never index
outside the buffer or the matrix, and hand `png_write_row` exactly the rows of
`rasterSpec`, whatever the buffer held when it was allocated. -/
theorem rasterRows_eq (code : QRcode) (params : Qrc_Params) (junk : Nat → Nat)
    (hW : 1 ≤ code.width) (hdata : (code.data.length : Int) = code.width * code.width)
    (hm : 0 ≤ params.margin) (hds : 1 ≤ params.dot_size) :
    rasterRows code params junk = Except.ok (rasterSpec code params) := by
  have h1 : code.width = (code.width.toNat : Int) := (Int.toNat_of_nonneg (by omega)).symm
  have h2 : params.margin = (params.margin.toNat : Int) := (Int.toNat_of_nonneg hm).symm
  have h3 : params.dot_size = (params.dot_size.toNat : Int) :=
    (Int.toNat_of_nonneg (by omega)).symm
  refine rasterRows_eq_nat code params junk _ _ _ h1 h2 h3 (by omega) ?_
  rw [h1] at hdata
  exact_mod_cast hdata

theorem pixelAt_rasterSpec (code : QRcode) (params : Qrc_Params) (W m ds : Nat)
    (hW : code.width = W) (hm : params.margin = m) (hds : params.dot_size = ds)
    (px py : Nat) (hpx : px < (W + 2 * m) * ds) (hpy : py < (W + 2 * m) * ds) :
    pixelAt (rasterSpec code params) px py
      = some (cellPixel code params (py / ds) (px / ds)) := by
  unfold pixelAt rasterSpec fullRow
  rw [imageSide_toNat code params W m ds hW hm hds, hds, Int.toNat_ofNat]
  simp [List.getElem?_map, List.getElem?_range hpy, List.getElem?_range hpx]

theorem pixelAt_rasterSpec_none (code : QRcode) (params : Qrc_Params) (W m ds : Nat)
    (hW : code.width = W) (hm : params.margin = m) (hds : params.dot_size = ds)
    (px py : Nat) (h : (W + 2 * m) * ds ≤ px ∨ (W + 2 * m) * ds ≤ py) :
    pixelAt (rasterSpec code params) px py = none := by
  unfold pixelAt rasterSpec fullRow
  rw [imageSide_toNat code params W m ds hW hm hds, hds, Int.toNat_ofNat]
  by_cases hpy : py < (W + 2 * m) * ds
  · have hpx : (W + 2 * m) * ds ≤ px := by omega
    simp [List.getElem?_map, List.getElem?_range hpy, hpx]
  · rw [List.getElem?_map, List.getElem?_eq_none (by simpa using hpy)]
    rfl

theorem cellPixel_margin (code : QRcode) (params : Qrc_Params) (W m : Nat)
    (hW : code.width = W) (hm : params.margin = m) (n k : Nat)
    (h : n < m ∨ m + W ≤ n ∨ k < m ∨ m + W ≤ k) : cellPixel code params n k = 0 := by
  unfold cellPixel
  rw [hW, hm, if_pos (by omega)]

theorem cellPixel_inner (code : QRcode) (params : Qrc_Params) (W m : Nat)
    (hW : code.width = W) (hm : params.margin = m) (hdata : code.data.length = W * W)
    (n k : Nat) (hn : m ≤ n) (hn1 : n < m + W) (hk : m ≤ k) (hk1 : k < m + W) :
    ∃ c, code.data[(n - m) * W + (k - m)]? = some c ∧
      cellPixel code params n k = (c <<< 7) % 256 := by
  have hin : (n - m) * W + (k - m) < code.data.length := by
    rw [hdata]
    have : (n - m + 1) * W ≤ W * W := Nat.mul_le_mul_right W (by omega)
    rw [Nat.add_mul] at this
    omega
  refine ⟨code.data[(n - m) * W + (k - m)], List.getElem?_eq_getElem hin, ?_⟩
  unfold cellPixel
  rw [hW, hm, if_neg (by omega)]
  have hcast : ((n : Int) - m) * W + ((k : Int) - m) = (((n - m) * W + (k - m) : Nat) : Int) := by
    rw [Nat.cast_add, Nat.cast_mul, Nat.cast_sub hn, Nat.cast_sub hk]
  rw [hcast, Int.toNat_ofNat]
  simp [List.getD, List.getElem?_eq_getElem hin]

theorem shift7_byte (c : Nat) : (c <<< 7) % 256 = if c % 2 = 1 then 128 else 0 := by
  rw [Nat.shiftLeft_eq]
  split <;> omega

theorem lt_mul_of_div_lt_nat (p a ds : Nat) (hds : 1 ≤ ds) (h : p / ds < a) : p < a * ds := by
  have h1 : p < ds * (p / ds + 1) := Nat.lt_mul_div_succ p (by omega)
  have h2 : ds * (p / ds + 1) ≤ ds * a := Nat.mul_le_mul_left ds (by omega)
  rw [Nat.mul_comm a ds]
  omega

/-! ## The rasterizer claims -/

/-- C1, as stated, fails: for the all-dark 21 x 21 matrix with margin 0 and dot size 1 the
cell under pixel (0, 0) has low bit 1, yet the byte stored for that pixel is 128, not the
palette index 1. -/
theorem C1_counterexample :
    darkCode.width = 21 ∧ plainParams.margin = 0 ∧ plainParams.dot_size = 1 ∧
      darkCode.data[0 * 21 + 0]? = some 1 ∧
      (∃ rows, rasterRows darkCode plainParams (fun _ => 0) = Except.ok rows ∧
        pixelAt rows 0 0 = some 128 ∧ pixelAt rows 0 0 ≠ some 1) := by
  have hcell : darkCode.data[0 * 21 + 0]? = some 1 := by
    show (List.replicate 441 (1 : Nat))[0]? = some 1
    rw [List.getElem?_replicate]
    rfl
  refine ⟨rfl, rfl, rfl, hcell, rasterSpec darkCode plainParams, ?_, ?_⟩
  · exact rasterRows_eq_nat darkCode plainParams _ 21 0 1 rfl rfl rfl (by decide)
      (List.length_replicate 441 1)
  · rw [pixelAt_rasterSpec darkCode plainParams 21 0 1 rfl rfl rfl 0 0 (by decide) (by decide)]
    exact ⟨rfl, by decide⟩

/-- C1 (amended): for a matrix of width `W ≥ 1` holding `W * W` bytes, margin in [0,10] and
dot size in [1,50], the row loop of `EncodePNG` finishes, and every pixel `(px, py)` whose
module coordinates `(px / ds - m, py / ds - m)` both lie in `[0, W)` has row byte 128 when
the low bit of cell `(row py / ds - m, column px / ds - m)` is 1 and row byte 0 otherwise; in
particular with margin 0 and dot size 1 the pixel in row `r`, column `c` is 128 times the
module bit of `data[r * W + c]`. -/
theorem C1_interior_pixel_is_shifted_module_bit (code : QRcode) (params : Qrc_Params)
    (junk : Nat → Nat) (W m ds : Nat)
    (hW : code.width = W) (hm : params.margin = m) (hds : params.dot_size = ds)
    (_hW1 : 1 ≤ W) (_hm10 : m ≤ 10) (hds1 : 1 ≤ ds) (_hds50 : ds ≤ 50)
    (hdata : code.data.length = W * W) :
    ∃ rows, rasterRows code params junk = Except.ok rows ∧
      (∀ px py : Nat, m ≤ px / ds → px / ds - m < W → m ≤ py / ds → py / ds - m < W →
        ∃ c, code.data[(py / ds - m) * W + (px / ds - m)]? = some c ∧
          pixelAt rows px py = some (if c % 2 = 1 then 128 else 0)) ∧
      (m = 0 → ds = 1 → ∀ r c : Nat, r < W → c < W →
        ∃ b, code.data[r * W + c]? = some b ∧ pixelAt rows c r = some (128 * (b % 2))) := by
  have hmain : ∀ px py : Nat, m ≤ px / ds → px / ds - m < W → m ≤ py / ds → py / ds - m < W →
      ∃ c, code.data[(py / ds - m) * W + (px / ds - m)]? = some c ∧
        pixelAt (rasterSpec code params) px py = some (if c % 2 = 1 then 128 else 0) := by
    intro px py h1 h2 h3 h4
    obtain ⟨c, hc, hv⟩ := cellPixel_inner code params W m hW hm hdata (py / ds) (px / ds)
      h3 (by omega) h1 (by omega)
    refine ⟨c, hc, ?_⟩
    rw [pixelAt_rasterSpec code params W m ds hW hm hds px py
      (lt_mul_of_div_lt_nat px _ ds hds1 (by omega))
      (lt_mul_of_div_lt_nat py _ ds hds1 (by omega)), hv, shift7_byte]
  refine ⟨rasterSpec code params,
    rasterRows_eq_nat code params junk W m ds hW hm hds hds1 hdata, hmain, ?_⟩
  intro hm0 hd1 r c hr hc
  subst hm0 hd1
  obtain ⟨b, hb, hv⟩ := hmain c r (Nat.zero_le _) (by simpa using hc) (Nat.zero_le _)
    (by simpa using hr)
  simp only [Nat.div_one, Nat.sub_zero] at hb hv
  refine ⟨b, hb, ?_⟩
  rw [hv]
  congr 1
  split <;> omega

/-- C1 (amended), at the all-dark 21 x 21 matrix with the default margin 4 and dot size 3. -/
theorem C1_interior_pixel_is_shifted_module_bit_witness :
    ∃ rows, rasterRows darkCode defaultParams (fun _ => 7) = Except.ok rows ∧
      (∀ px py : Nat, 4 ≤ px / 3 → px / 3 - 4 < 21 → 4 ≤ py / 3 → py / 3 - 4 < 21 →
        ∃ c, darkCode.data[(py / 3 - 4) * 21 + (px / 3 - 4)]? = some c ∧
          pixelAt rows px py = some (if c % 2 = 1 then 128 else 0)) ∧
      ((4 : Nat) = 0 → (3 : Nat) = 1 → ∀ r c : Nat, r < 21 → c < 21 →
        ∃ b, darkCode.data[r * 21 + c]? = some b ∧ pixelAt rows c r = some (128 * (b % 2))) :=
  C1_interior_pixel_is_shifted_module_bit darkCode defaultParams (fun _ => 7) 21 4 3
    rfl rfl rfl (by decide) (by decide) (by decide) (by decide) (List.length_replicate 441 1)

/-- C2: for a matrix of width `W ≥ 1` with arbitrary cell bytes, margin in [0,10] and dot
size in [1,50], the row loop of `EncodePNG` finishes, and every pixel `(px, py)` of the
raster whose module row `py / ds - m` or module column `px / ds - m` lies outside `[0, W)`
has row byte 0. -/
theorem C2_margin_pixels_are_background (code : QRcode) (params : Qrc_Params)
    (junk : Nat → Nat) (W m ds : Nat)
    (hW : code.width = W) (hm : params.margin = m) (hds : params.dot_size = ds)
    (_hW1 : 1 ≤ W) (_hm10 : m ≤ 10) (hds1 : 1 ≤ ds) (_hds50 : ds ≤ 50)
    (hdata : code.data.length = W * W) :
    ∃ rows, rasterRows code params junk = Except.ok rows ∧
      ∀ px py : Nat, px < (W + 2 * m) * ds → py < (W + 2 * m) * ds →
        ((py / ds : Nat) : Int) - m < 0 ∨ (W : Int) ≤ ((py / ds : Nat) : Int) - m ∨
          ((px / ds : Nat) : Int) - m < 0 ∨ (W : Int) ≤ ((px / ds : Nat) : Int) - m →
        pixelAt rows px py = some 0 := by
  refine ⟨rasterSpec code params,
    rasterRows_eq_nat code params junk W m ds hW hm hds hds1 hdata, ?_⟩
  intro px py hpx hpy hout
  rw [pixelAt_rasterSpec code params W m ds hW hm hds px py hpx hpy,
    cellPixel_margin code params W m hW hm _ _ (by omega)]

/-- C2 at the all-dark 21 x 21 matrix with the default margin 4 and dot size 3. -/
theorem C2_margin_pixels_are_background_witness :
    ∃ rows, rasterRows darkCode defaultParams (fun _ => 7) = Except.ok rows ∧
      ∀ px py : Nat, px < (21 + 2 * 4) * 3 → py < (21 + 2 * 4) * 3 →
        ((py / 3 : Nat) : Int) - (4 : Nat) < 0 ∨
          ((21 : Nat) : Int) ≤ ((py / 3 : Nat) : Int) - (4 : Nat) ∨
          ((px / 3 : Nat) : Int) - (4 : Nat) < 0 ∨
          ((21 : Nat) : Int) ≤ ((px / 3 : Nat) : Int) - (4 : Nat) →
        pixelAt rows px py = some 0 :=
  C2_margin_pixels_are_background darkCode defaultParams (fun _ => 7) 21 4 3
    rfl rfl rfl (by decide) (by decide) (by decide) (by decide) (List.length_replicate 441 1)

/-- C3: for a matrix of width `W ≥ 1`, margin in [0,10] and dot size in [1,50], the row loop
of `EncodePNG` hands `png_write_row` exactly `(W + 2 * m) * ds` rows, each row has exactly
`(W + 2 * m) * ds` pixels, and that number is the width and the height given to
`png_set_IHDR`; `W = 21, m = 4, ds = 3` gives 87 rows of 87 pixels and `W = 21, m = 0,
ds = 1` gives 21 rows of 21 pixels. -/
theorem C3_raster_is_square_of_declared_side (code : QRcode) (params : Qrc_Params)
    (junk : Nat → Nat) (W m ds : Nat)
    (hW : code.width = W) (hm : params.margin = m) (hds : params.dot_size = ds)
    (_hW1 : 1 ≤ W) (_hm10 : m ≤ 10) (hds1 : 1 ≤ ds) (_hds50 : ds ≤ 50)
    (hdata : code.data.length = W * W) :
    ∃ rows, rasterRows code params junk = Except.ok rows ∧
      rows.length = (W + 2 * m) * ds ∧
      (∀ r, r ∈ rows → r.length = (W + 2 * m) * ds) ∧
      ihdrWidth code params = (((W + 2 * m) * ds : Nat) : Int) ∧
      ihdrHeight code params = (((W + 2 * m) * ds : Nat) : Int) ∧
      (W = 21 → m = 4 → ds = 3 → rows.length = 87 ∧ ∀ r, r ∈ rows → r.length = 87) ∧
      (W = 21 → m = 0 → ds = 1 → rows.length = 21 ∧ ∀ r, r ∈ rows → r.length = 21) := by
  have hS := imageSide_toNat code params W m ds hW hm hds
  have hlen : (rasterSpec code params).length = (W + 2 * m) * ds := by
    simp [rasterSpec, hS]
  have hrow : ∀ r, r ∈ rasterSpec code params → r.length = (W + 2 * m) * ds := by
    intro r hr
    unfold rasterSpec at hr
    obtain ⟨py, _, rfl⟩ := List.mem_map.mp hr
    simp [fullRow, hS]
  have hside : ((code.width + params.margin * 2) * params.dot_size : Int)
      = (((W + 2 * m) * ds : Nat) : Int) := by
    rw [hW, hm, hds]; push_cast; ring
  refine ⟨rasterSpec code params,
    rasterRows_eq_nat code params junk W m ds hW hm hds hds1 hdata, hlen, hrow, hside, hside,
    ?_, ?_⟩
  · intro h1 h2 h3
    subst h1 h2 h3
    exact ⟨hlen, hrow⟩
  · intro h1 h2 h3
    subst h1 h2 h3
    exact ⟨hlen, hrow⟩

/-- C3 at the all-dark 21 x 21 matrix with the default margin 4 and dot size 3: 87 rows of
87 pixels. -/
theorem C3_raster_is_square_of_declared_side_witness :
    ∃ rows, rasterRows darkCode defaultParams (fun _ => 7) = Except.ok rows ∧
      rows.length = (21 + 2 * 4) * 3 ∧
      (∀ r, r ∈ rows → r.length = (21 + 2 * 4) * 3) ∧
      ihdrWidth darkCode defaultParams = (((21 + 2 * 4) * 3 : Nat) : Int) ∧
      ihdrHeight darkCode defaultParams = (((21 + 2 * 4) * 3 : Nat) : Int) ∧
      ((21 : Nat) = 21 → (4 : Nat) = 4 → (3 : Nat) = 3 →
        rows.length = 87 ∧ ∀ r, r ∈ rows → r.length = 87) ∧
      ((21 : Nat) = 21 → (4 : Nat) = 0 → (3 : Nat) = 1 →
        rows.length = 21 ∧ ∀ r, r ∈ rows → r.length = 21) :=
  C3_raster_is_square_of_declared_side darkCode defaultParams (fun _ => 7) 21 4 3
    rfl rfl rfl (by decide) (by decide) (by decide) (by decide) (List.length_replicate 441 1)

/-- C4: for a matrix of width `W ≥ 1`, margin in [0,10] and dot size in [1,50], the raster
of `EncodePNG` is constant on `ds x ds` blocks: the rows come in `W + 2 * m` groups of `ds`
consecutive equal rows, in every row the pixels of columns `k * ds .. k * ds + ds - 1` are
equal for every `k < W + 2 * m`, and `pixel (px, py) = pixel (ds * (px / ds), ds * (py / ds))`
for every pixel of the raster. -/
theorem C4_raster_is_constant_on_dot_blocks (code : QRcode) (params : Qrc_Params)
    (junk : Nat → Nat) (W m ds : Nat)
    (hW : code.width = W) (hm : params.margin = m) (hds : params.dot_size = ds)
    (_hW1 : 1 ≤ W) (_hm10 : m ≤ 10) (hds1 : 1 ≤ ds) (_hds50 : ds ≤ 50)
    (hdata : code.data.length = W * W) :
    ∃ rows, rasterRows code params junk = Except.ok rows ∧
      rows.length = (W + 2 * m) * ds ∧
      (∀ g d : Nat, g < W + 2 * m → d < ds →
        ∃ r, rows[g * ds]? = some r ∧ rows[g * ds + d]? = some r) ∧
      (∀ r, r ∈ rows → ∀ k d : Nat, k < W + 2 * m → d < ds →
        ∃ v, r[k * ds]? = some v ∧ r[k * ds + d]? = some v) ∧
      (∀ px py : Nat, px < (W + 2 * m) * ds → py < (W + 2 * m) * ds →
        ∃ v, pixelAt rows px py = some v ∧
          pixelAt rows (ds * (px / ds)) (ds * (py / ds)) = some v) := by
  have hS := imageSide_toNat code params W m ds hW hm hds
  have hblock : ∀ k d : Nat, k < W + 2 * m → d < ds → k * ds + d < (W + 2 * m) * ds := by
    intro k d hk hd
    have : (k + 1) * ds ≤ (W + 2 * m) * ds := Nat.mul_le_mul_right ds (by omega)
    rw [Nat.add_mul] at this
    omega
  have hzero : ∀ k : Nat, k < W + 2 * m → k * ds < (W + 2 * m) * ds := by
    intro k hk
    have := hblock k 0 hk (by omega)
    omega
  have hdd : (params.dot_size.toNat) = ds := by rw [hds, Int.toNat_ofNat]
  have hk0 : ∀ k : Nat, k * ds / ds = k := fun k => Nat.mul_div_cancel k (by omega)
  refine ⟨rasterSpec code params,
    rasterRows_eq_nat code params junk W m ds hW hm hds hds1 hdata, ?_, ?_, ?_, ?_⟩
  · simp [rasterSpec, hS]
  · intro g d hg hd
    refine ⟨fullRow code params ((W + 2 * m) * ds) g, ?_, ?_⟩
    · unfold rasterSpec
      rw [hS, hdd, List.getElem?_map, List.getElem?_range (hzero g hg)]
      simp [hk0]
    · unfold rasterSpec
      rw [hS, hdd, List.getElem?_map, List.getElem?_range (hblock g d hg hd)]
      simp [mul_add_div_self g ds d hd]
  · intro r hr k d hk hd
    unfold rasterSpec at hr
    obtain ⟨py, _, rfl⟩ := List.mem_map.mp hr
    refine ⟨cellPixel code params (py / ds) k, ?_, ?_⟩
    · unfold fullRow
      rw [hS, hdd, List.getElem?_map, List.getElem?_range (hzero k hk)]
      simp [hk0]
    · unfold fullRow
      rw [hS, hdd, List.getElem?_map, List.getElem?_range (hblock k d hk hd)]
      simp [mul_add_div_self k ds d hd]
  · intro px py hpx hpy
    have hpx1 : ds * (px / ds) < (W + 2 * m) * ds :=
      lt_of_le_of_lt (Nat.mul_div_le px ds) hpx
    have hpy1 : ds * (py / ds) < (W + 2 * m) * ds :=
      lt_of_le_of_lt (Nat.mul_div_le py ds) hpy
    refine ⟨cellPixel code params (py / ds) (px / ds),
      pixelAt_rasterSpec code params W m ds hW hm hds px py hpx hpy, ?_⟩
    rw [pixelAt_rasterSpec code params W m ds hW hm hds _ _ hpx1 hpy1,
      Nat.mul_div_cancel_left _ (by omega : 0 < ds),
      Nat.mul_div_cancel_left _ (by omega : 0 < ds)]

/-- C4 at the all-dark 21 x 21 matrix with the default margin 4 and dot size 3. -/
theorem C4_raster_is_constant_on_dot_blocks_witness :
    ∃ rows, rasterRows darkCode defaultParams (fun _ => 7) = Except.ok rows ∧
      rows.length = (21 + 2 * 4) * 3 ∧
      (∀ g d : Nat, g < 21 + 2 * 4 → d < 3 →
        ∃ r, rows[g * 3]? = some r ∧ rows[g * 3 + d]? = some r) ∧
      (∀ r, r ∈ rows → ∀ k d : Nat, k < 21 + 2 * 4 → d < 3 →
        ∃ v, r[k * 3]? = some v ∧ r[k * 3 + d]? = some v) ∧
      (∀ px py : Nat, px < (21 + 2 * 4) * 3 → py < (21 + 2 * 4) * 3 →
        ∃ v, pixelAt rows px py = some v ∧
          pixelAt rows (3 * (px / 3)) (3 * (py / 3)) = some v) :=
  C4_raster_is_constant_on_dot_blocks darkCode defaultParams (fun _ => 7) 21 4 3
    rfl rfl rfl (by decide) (by decide) (by decide) (by decide) (List.length_replicate 441 1)

/-! ## `ValidateArgs`, block by block -/

theorem bind_eq_ok {ε α β : Type} (x : Except ε α) (f : α → Except ε β) (b : β) :
    x.bind f = Except.ok b ↔ ∃ a, x = Except.ok a ∧ f a = Except.ok b := by
  cases x with
  | error e => simp [Except.bind]
  | ok a => simp [Except.bind]

theorem checkVersion_ok (paramsObj : Value) (p q : Qrc_Params) :
    checkVersion paramsObj p = Except.ok q ↔
      (paramsObj.Get "version").absentOrIn Value.IsInt32 1 40 ∧
        q = { p with version := (paramsObj.Get "version").orDefault p.version } := by
  unfold checkVersion Value.absentOrIn Value.orDefault QRSPEC_VERSION_MAX
  generalize paramsObj.Get "version" = v
  cases v with
  | undefined => simp [Value.IsUndefined]; exact eq_comm
  | int n =>
    simp only [Value.IsUndefined, Value.IsInt32, Value.IntegerValue]
    by_cases h1 : -2147483648 ≤ n ∧ n ≤ 2147483647
    · by_cases h2 : n < 1 ∨ n > 40
      · simp [h1, h2]; omega
      · simp [h1, h2]
        constructor
        · intro h; exact ⟨by omega, h.symm⟩
        · intro h; exact h.2.symm
    · simp [h1]
  | _ => simp [Value.IsUndefined, Value.IsInt32]

theorem checkEcLevel_ok (paramsObj : Value) (data : List Nat) (p q : Qrc_Params) :
    checkEcLevel paramsObj data p = Except.ok q ↔
      ((paramsObj.Get "ecLevel").absentOrIn Value.IsInt32 0 3 ∧
        ((paramsObj.Get "ecLevel").IsUndefined = false →
          data.length ≤ maxSize (paramsObj.Get "ecLevel").IntegerValue)) ∧
        q = { p with ec_level := (paramsObj.Get "ecLevel").orDefault p.ec_level } := by
  unfold checkEcLevel Value.absentOrIn Value.orDefault QR_ECLEVEL_L QR_ECLEVEL_H
  generalize paramsObj.Get "ecLevel" = v
  cases v with
  | undefined => simp [Value.IsUndefined]; exact eq_comm
  | int n =>
    simp only [Value.IsUndefined, Value.IsInt32, Value.IntegerValue]
    by_cases h1 : -2147483648 ≤ n ∧ n ≤ 2147483647
    · by_cases h2 : n < 0 ∨ n > 3
      · simp [h1, h2]; omega
      · by_cases h3 : (data.length : Int) > maxSize n
        · simp [h1, h2, h3]
          intro _ _ _
          omega
        · simp [h1, h2, h3]
          constructor
          · intro h; exact ⟨⟨by omega, by omega⟩, h.symm⟩
          · intro h; exact h.2.symm
    · simp [h1]
  | _ => simp [Value.IsUndefined, Value.IsInt32]

theorem checkMode_ok (paramsObj : Value) (p q : Qrc_Params) :
    checkMode paramsObj p = Except.ok q ↔
      (paramsObj.Get "mode").absentOrIn Value.IsInt32 0 3 ∧
        q = { p with mode := (paramsObj.Get "mode").orDefault p.mode } := by
  unfold checkMode Value.absentOrIn Value.orDefault QR_MODE_NUM QR_MODE_KANJI
  generalize paramsObj.Get "mode" = v
  cases v with
  | undefined => simp [Value.IsUndefined]; exact eq_comm
  | int n =>
    simp only [Value.IsUndefined, Value.IsInt32, Value.IntegerValue]
    by_cases h1 : -2147483648 ≤ n ∧ n ≤ 2147483647
    · by_cases h2 : n < 0 ∨ n > 3
      · simp [h1, h2]; omega
      · simp [h1, h2]
        constructor
        · intro h; exact ⟨by omega, h.symm⟩
        · intro h; exact h.2.symm
    · simp [h1]
  | _ => simp [Value.IsUndefined, Value.IsInt32]

theorem checkDotSize_ok (paramsObj : Value) (p q : Qrc_Params) :
    checkDotSize paramsObj p = Except.ok q ↔
      (paramsObj.Get "dotSize").absentOrIn Value.IsInt32 1 50 ∧
        q = { p with dot_size := (paramsObj.Get "dotSize").orDefault p.dot_size } := by
  unfold checkDotSize Value.absentOrIn Value.orDefault
  generalize paramsObj.Get "dotSize" = v
  cases v with
  | undefined => simp [Value.IsUndefined]; exact eq_comm
  | int n =>
    simp only [Value.IsUndefined, Value.IsInt32, Value.IntegerValue]
    by_cases h1 : -2147483648 ≤ n ∧ n ≤ 2147483647
    · by_cases h2 : n < 1 ∨ n > 50
      · simp [h1, h2]; omega
      · simp [h1, h2]
        constructor
        · intro h; exact ⟨by omega, h.symm⟩
        · intro h; exact h.2.symm
    · simp [h1]
  | _ => simp [Value.IsUndefined, Value.IsInt32]

theorem checkMargin_ok (paramsObj : Value) (p q : Qrc_Params) :
    checkMargin paramsObj p = Except.ok q ↔
      (paramsObj.Get "margin").absentOrIn Value.IsInt32 0 10 ∧
        q = { p with margin := (paramsObj.Get "margin").orDefault p.margin } := by
  unfold checkMargin Value.absentOrIn Value.orDefault
  generalize paramsObj.Get "margin" = v
  cases v with
  | undefined => simp [Value.IsUndefined]; exact eq_comm
  | int n =>
    simp only [Value.IsUndefined, Value.IsInt32, Value.IntegerValue]
    by_cases h1 : -2147483648 ≤ n ∧ n ≤ 2147483647
    · by_cases h2 : n < 0 ∨ n > 10
      · simp [h1, h2]; omega
      · simp [h1, h2]
        constructor
        · intro h; exact ⟨by omega, h.symm⟩
        · intro h; exact h.2.symm
    · simp [h1]
  | _ => simp [Value.IsUndefined, Value.IsInt32]

theorem checkFgColor_ok (paramsObj : Value) (p q : Qrc_Params) :
    checkFgColor paramsObj p = Except.ok q ↔
      (paramsObj.Get "foregroundColor").absentOrIn Value.IsUint32 0 16777215 ∧
        q = { p with
          foreground_color := (paramsObj.Get "foregroundColor").orDefault p.foreground_color } := by
  unfold checkFgColor Value.absentOrIn Value.orDefault WHITE
  generalize paramsObj.Get "foregroundColor" = v
  cases v with
  | undefined => simp [Value.IsUndefined]; exact eq_comm
  | int n =>
    simp only [Value.IsUndefined, Value.IsUint32, Value.IntegerValue]
    by_cases h1 : 0 ≤ n ∧ n ≤ 4294967295
    · by_cases h2 : n < 0 ∨ n ≥ 16777216
      · simp [h1, h2]; omega
      · simp [h1, h2]
        constructor
        · intro h; exact ⟨by omega, h.symm⟩
        · intro h; exact h.2.symm
    · simp [h1]
  | _ => simp [Value.IsUndefined, Value.IsUint32]

theorem checkBgColor_ok (paramsObj : Value) (p q : Qrc_Params) :
    checkBgColor paramsObj p = Except.ok q ↔
      (paramsObj.Get "backgroundColor").absentOrIn Value.IsUint32 0 16777215 ∧
        q = { p with
          background_color := (paramsObj.Get "backgroundColor").orDefault p.background_color } := by
  unfold checkBgColor Value.absentOrIn Value.orDefault WHITE
  generalize paramsObj.Get "backgroundColor" = v
  cases v with
  | undefined => simp [Value.IsUndefined]; exact eq_comm
  | int n =>
    simp only [Value.IsUndefined, Value.IsUint32, Value.IntegerValue]
    by_cases h1 : 0 ≤ n ∧ n ≤ 4294967295
    · by_cases h2 : n < 0 ∨ n ≥ 16777216
      · simp [h1, h2]; omega
      · simp [h1, h2]
        constructor
        · intro h; exact ⟨by omega, h.symm⟩
        · intro h; exact h.2.symm
    · simp [h1]
  | _ => simp [Value.IsUndefined, Value.IsUint32]

/-- The seven blocks together: they all pass exactly when every option is absent or valid,
and then each field holds the specified value or what it held before. -/
theorem checkOptions_ok (paramsObj : Value) (data : List Nat) (p q : Qrc_Params) :
    checkOptions paramsObj data p = Except.ok q ↔
      optionsValid data paramsObj ∧
        q = { data := p.data
              ec_level := (paramsObj.Get "ecLevel").orDefault p.ec_level
              mode := (paramsObj.Get "mode").orDefault p.mode
              version := (paramsObj.Get "version").orDefault p.version
              dot_size := (paramsObj.Get "dotSize").orDefault p.dot_size
              margin := (paramsObj.Get "margin").orDefault p.margin
              foreground_color := (paramsObj.Get "foregroundColor").orDefault p.foreground_color
              background_color :=
                (paramsObj.Get "backgroundColor").orDefault p.background_color } := by
  unfold checkOptions optionsValid
  simp only [bind_eq_ok, checkVersion_ok, checkEcLevel_ok, checkMode_ok, checkDotSize_ok,
    checkMargin_ok, checkFgColor_ok, checkBgColor_ok]
  constructor
  · rintro ⟨p1, ⟨h1, rfl⟩, p2, ⟨h2, rfl⟩, p3, ⟨h3, rfl⟩, p4, ⟨h4, rfl⟩, p5, ⟨h5, rfl⟩, p6,
      ⟨h6, rfl⟩, h7, rfl⟩
    exact ⟨⟨h1, h2, h3, h4, h5, h6, h7⟩, rfl⟩
  · rintro ⟨⟨h1, h2, h3, h4, h5, h6, h7⟩, rfl⟩
    exact ⟨_, ⟨h1, rfl⟩, _, ⟨h2, rfl⟩, _, ⟨h3, rfl⟩, _, ⟨h4, rfl⟩, _, ⟨h5, rfl⟩, _, ⟨h6, rfl⟩,
      h7, rfl⟩

/-- `ValidateArgs` on a text and an options object. -/
theorem ValidateArgs_options (utf8 : List Nat) (get : String → Value)
    (hlen : 1 ≤ (sourceString (Value.string utf8)).length ∧
      (sourceString (Value.string utf8)).length ≤ 2938) :
    ValidateArgs [Value.string utf8, Value.object get]
      = checkOptions (Value.object get) (sourceString (Value.string utf8))
          (Qrc_Params.new (sourceString (Value.string utf8))) := by
  unfold ValidateArgs
  have hmax : maxSize 0 = 2938 := rfl
  simp only [Value.IsString, Value.IsObject, hmax]
  rw [if_neg (by simp), if_neg (by omega), if_neg (by simp)]

/-- `ValidateArgs` accepts a text with an options object exactly when the text has 1 to 2938
bytes and every option is absent or valid; the record is then the requested one. -/
theorem ValidateArgs_ok (utf8 : List Nat) (get : String → Value) (q : Qrc_Params) :
    ValidateArgs [Value.string utf8, Value.object get] = Except.ok q ↔
      (1 ≤ (sourceString (Value.string utf8)).length ∧
        (sourceString (Value.string utf8)).length ≤ 2938) ∧
      optionsValid (sourceString (Value.string utf8)) (Value.object get) ∧
      q = requested (sourceString (Value.string utf8)) (Value.object get) := by
  by_cases hlen : 1 ≤ (sourceString (Value.string utf8)).length ∧
      (sourceString (Value.string utf8)).length ≤ 2938
  · rw [ValidateArgs_options utf8 get hlen, checkOptions_ok]
    simp only [hlen, true_and, and_true, requested, Qrc_Params.new, QR_ECLEVEL_L, QR_MODE_8]
  · have hmax : maxSize 0 = 2938 := rfl
    unfold ValidateArgs
    simp only [Value.IsString, hmax]
    rw [if_neg (by simp), if_pos (by omega)]
    simp [hlen]

theorem checkVersion_range (paramsObj : Value) (p : Qrc_Params)
    (ht : (paramsObj.Get "version").IsInt32 = true)
    (hr : (paramsObj.Get "version").IntegerValue < 1 ∨
      40 < (paramsObj.Get "version").IntegerValue) :
    checkVersion paramsObj p = Except.error (JsError.RangeError "Version out of range") := by
  unfold checkVersion QRSPEC_VERSION_MAX
  generalize paramsObj.Get "version" = v at ht hr
  cases v <;> simp_all [Value.IsUndefined, Value.IsInt32, Value.IntegerValue]

theorem checkEcLevel_range (paramsObj : Value) (data : List Nat) (p : Qrc_Params)
    (ht : (paramsObj.Get "ecLevel").IsInt32 = true)
    (hr : (paramsObj.Get "ecLevel").IntegerValue < 0 ∨
      3 < (paramsObj.Get "ecLevel").IntegerValue) :
    checkEcLevel paramsObj data p
      = Except.error (JsError.RangeError "EC level out of range") := by
  unfold checkEcLevel QR_ECLEVEL_L QR_ECLEVEL_H
  generalize paramsObj.Get "ecLevel" = v at ht hr
  cases v <;> simp_all [Value.IsUndefined, Value.IsInt32, Value.IntegerValue]

theorem checkEcLevel_length (paramsObj : Value) (data : List Nat) (p : Qrc_Params)
    (ht : (paramsObj.Get "ecLevel").IsInt32 = true)
    (hr : 0 ≤ (paramsObj.Get "ecLevel").IntegerValue ∧
      (paramsObj.Get "ecLevel").IntegerValue ≤ 3)
    (hl : maxSize (paramsObj.Get "ecLevel").IntegerValue < data.length) :
    checkEcLevel paramsObj data p
      = Except.error (JsError.RangeError "Source string length out of range") := by
  unfold checkEcLevel QR_ECLEVEL_L QR_ECLEVEL_H
  generalize paramsObj.Get "ecLevel" = v at ht hr hl
  cases v with
  | int n =>
    simp only [Value.IsUndefined, Value.IsInt32, Value.IntegerValue] at ht hr hl ⊢
    have h2 : ¬ (n < 0 ∨ n > 3) := by omega
    have h3 : (data.length : Int) > maxSize n := by exact_mod_cast hl
    simp [ht, h2, h3]
  | _ => simp [Value.IsInt32] at ht

theorem checkMode_range (paramsObj : Value) (p : Qrc_Params)
    (ht : (paramsObj.Get "mode").IsInt32 = true)
    (hr : (paramsObj.Get "mode").IntegerValue < 0 ∨ 3 < (paramsObj.Get "mode").IntegerValue) :
    checkMode paramsObj p = Except.error (JsError.RangeError "Mode out of range") := by
  unfold checkMode QR_MODE_NUM QR_MODE_KANJI
  generalize paramsObj.Get "mode" = v at ht hr
  cases v <;> simp_all [Value.IsUndefined, Value.IsInt32, Value.IntegerValue]

theorem checkDotSize_range (paramsObj : Value) (p : Qrc_Params)
    (ht : (paramsObj.Get "dotSize").IsInt32 = true)
    (hr : (paramsObj.Get "dotSize").IntegerValue < 1 ∨
      50 < (paramsObj.Get "dotSize").IntegerValue) :
    checkDotSize paramsObj p = Except.error (JsError.RangeError "Dot size out of range") := by
  unfold checkDotSize
  generalize paramsObj.Get "dotSize" = v at ht hr
  cases v <;> simp_all [Value.IsUndefined, Value.IsInt32, Value.IntegerValue]

theorem checkMargin_range (paramsObj : Value) (p : Qrc_Params)
    (ht : (paramsObj.Get "margin").IsInt32 = true)
    (hr : (paramsObj.Get "margin").IntegerValue < 0 ∨
      10 < (paramsObj.Get "margin").IntegerValue) :
    checkMargin paramsObj p = Except.error (JsError.RangeError "Margin size out of range") := by
  unfold checkMargin
  generalize paramsObj.Get "margin" = v at ht hr
  cases v <;> simp_all [Value.IsUndefined, Value.IsInt32, Value.IntegerValue]

theorem checkFgColor_range (paramsObj : Value) (p : Qrc_Params)
    (ht : (paramsObj.Get "foregroundColor").IsUint32 = true)
    (hr : 16777216 ≤ (paramsObj.Get "foregroundColor").IntegerValue) :
    checkFgColor paramsObj p
      = Except.error (JsError.RangeError "Foreground color out of range") := by
  unfold checkFgColor WHITE
  generalize paramsObj.Get "foregroundColor" = v at ht hr
  cases v <;> simp_all [Value.IsUndefined, Value.IsUint32, Value.IntegerValue]

theorem checkBgColor_range (paramsObj : Value) (p : Qrc_Params)
    (ht : (paramsObj.Get "backgroundColor").IsUint32 = true)
    (hr : 16777216 ≤ (paramsObj.Get "backgroundColor").IntegerValue) :
    checkBgColor paramsObj p
      = Except.error (JsError.RangeError "Background color out of range") := by
  unfold checkBgColor WHITE
  generalize paramsObj.Get "backgroundColor" = v at ht hr
  cases v <;> simp_all [Value.IsUndefined, Value.IsUint32, Value.IntegerValue]

theorem maxSize_table :
    maxSize 0 = 2938 ∧ maxSize 1 = 2319 ∧ maxSize 2 = 1655 ∧ maxSize 3 = 1268 :=
  ⟨rfl, rfl, rfl, rfl⟩

theorem maxSize_le (ec : Int) (h0 : 0 ≤ ec) (h3 : ec ≤ 3) : maxSize ec ≤ 2938 := by
  interval_cases ec <;> decide

/-- A text the first test of `ValidateArgs` turns down (line 75). -/
theorem ValidateArgs_length (utf8 : List Nat) (rest : List Value)
    (hlen : (sourceString (Value.string utf8)).length = 0 ∨
      2938 < (sourceString (Value.string utf8)).length) :
    ValidateArgs (Value.string utf8 :: rest)
      = Except.error (JsError.RangeError "Source string length out of range") := by
  have hmax : maxSize 0 = 2938 := rfl
  unfold ValidateArgs
  simp only [Value.IsString, hmax]
  rw [if_neg (by simp), if_pos (by omega)]

/-! ## The validator claims -/

/-- With `ecLevel` given as a level in 0..3 and every other option absent or valid, the
call is accepted exactly when the string of line 74 has between 1 and `maxSize ec` bytes,
and is otherwise turned down with the length error. -/
theorem ValidateArgs_level_length (utf8 : List Nat) (get : String → Value)
    (ec : Int) (hec : get "ecLevel" = Value.int ec) (hrange : 0 ≤ ec ∧ ec ≤ 3)
    (hversion : (get "version").absentOrIn Value.IsInt32 1 40)
    (hmode : (get "mode").absentOrIn Value.IsInt32 0 3)
    (hdot : (get "dotSize").absentOrIn Value.IsInt32 1 50)
    (hmargin : (get "margin").absentOrIn Value.IsInt32 0 10)
    (hfg : (get "foregroundColor").absentOrIn Value.IsUint32 0 16777215)
    (hbg : (get "backgroundColor").absentOrIn Value.IsUint32 0 16777215) :
    ((∃ p, ValidateArgs [Value.string utf8, Value.object get] = Except.ok p) ↔
      1 ≤ (sourceString (Value.string utf8)).length ∧
        (sourceString (Value.string utf8)).length ≤ maxSize ec) ∧
    ((sourceString (Value.string utf8)).length = 0 ∨
        maxSize ec < (sourceString (Value.string utf8)).length →
      ValidateArgs [Value.string utf8, Value.object get]
        = Except.error (JsError.RangeError "Source string length out of range")) ∧
    (maxSize 0 = 2938 ∧ maxSize 1 = 2319 ∧ maxSize 2 = 1655 ∧ maxSize 3 = 1268) := by
  have hle := maxSize_le ec hrange.1 hrange.2
  have hint : (Value.int ec).IsInt32 = true := by
    simp only [Value.IsInt32, decide_eq_true_eq]
    omega
  refine ⟨?_, ?_, maxSize_table⟩
  · constructor
    · rintro ⟨p, hp⟩
      obtain ⟨hlen, hvalid, _⟩ := (ValidateArgs_ok utf8 get p).mp hp
      have h2 := hvalid.2.1.2
      simp only [Value.Get, hec, Value.IsUndefined, Value.IntegerValue] at h2
      exact ⟨hlen.1, h2 trivial⟩
    · rintro ⟨h1, h2⟩
      refine ⟨_, (ValidateArgs_ok utf8 get _).mpr ⟨⟨h1, by omega⟩, ?_, rfl⟩⟩
      refine ⟨hversion, ⟨?_, ?_⟩, hmode, hdot, hmargin, hfg, hbg⟩
      · simp only [Value.Get, hec]
        exact Or.inr ⟨hint, hrange.1, hrange.2⟩
      · simp only [Value.Get, hec, Value.IntegerValue]
        exact fun _ => h2
  · intro hbad
    by_cases hfirst : (sourceString (Value.string utf8)).length = 0 ∨
        2938 < (sourceString (Value.string utf8)).length
    · exact ValidateArgs_length utf8 _ hfirst
    · rw [ValidateArgs_options utf8 get (by omega)]
      unfold checkOptions
      rw [(checkVersion_ok (Value.object get) _ _).mpr ⟨hversion, rfl⟩]
      simp only [Except.bind]
      rw [checkEcLevel_length (Value.object get) _ _
        (by simp only [Value.Get, hec]; exact hint)
        (by simp only [Value.Get, hec, Value.IntegerValue]; exact hrange)
        (by simp only [Value.Get, hec, Value.IntegerValue]; omega)]

theorem sourceString_string (utf8 : List Nat) :
    sourceString (Value.string utf8) = cString utf8 := rfl

theorem cString_of_no_zero (utf8 : List Nat) (h : ∀ b, b ∈ utf8 → b ≠ 0) :
    (cString utf8).length = textLength utf8 := by
  unfold cString textLength
  rw [List.takeWhile_eq_self_iff.mpr (fun b hb => by simpa using h b hb)]

/-- C5, as stated, fails in both directions at level H, whose maximum is 1268: the 5002-byte
text `A`, zero byte, 5000 times `B` is accepted, with the one byte `A` as its data; and the
4-byte text zero byte, `ABC` is rejected with the length error. -/
theorem C5_counterexample :
    textLength ([65, 0] ++ List.replicate 5000 66) = 5002 ∧ maxSize 3 = 1268 ∧
    ValidateArgs [Value.string ([65, 0] ++ List.replicate 5000 66),
        Value.object (fieldsOf [("ecLevel", Value.int 3)])]
      = Except.ok { Qrc_Params.new [65] with ec_level := 3 } ∧
    textLength [0, 65, 66, 67] = 4 ∧
    ValidateArgs [Value.string [0, 65, 66, 67],
        Value.object (fieldsOf [("ecLevel", Value.int 3)])]
      = Except.error (JsError.RangeError "Source string length out of range") :=
  ⟨by rw [textLength, List.length_append, List.length_replicate]; rfl, rfl, rfl, rfl, rfl⟩

/-- C5 (amended): with `ecLevel` given as a level `ec` in {L, M, Q, H} (0..3) and every other
option absent or valid, `ValidateArgs` accepts a text if and only if `1 ≤ Len ≤ max[ec]`,
where `Len` is the number of bytes of the text before its first zero byte (the whole text
when it has no zero byte) and `max = [2938, 2319, 1655, 1268]`; the record then holds those
bytes and the level; when `Len = 0` or `Len > max[ec]` it throws a `RangeError` and returns
no record. -/
theorem C5_c_string_length_accepted_iff_within_level_maximum (utf8 : List Nat)
    (get : String → Value) (ec : Int) (hec : get "ecLevel" = Value.int ec)
    (hrange : 0 ≤ ec ∧ ec ≤ 3)
    (hversion : (get "version").absentOrIn Value.IsInt32 1 40)
    (hmode : (get "mode").absentOrIn Value.IsInt32 0 3)
    (hdot : (get "dotSize").absentOrIn Value.IsInt32 1 50)
    (hmargin : (get "margin").absentOrIn Value.IsInt32 0 10)
    (hfg : (get "foregroundColor").absentOrIn Value.IsUint32 0 16777215)
    (hbg : (get "backgroundColor").absentOrIn Value.IsUint32 0 16777215) :
    ((∃ p, ValidateArgs [Value.string utf8, Value.object get] = Except.ok p) ↔
      1 ≤ (cString utf8).length ∧ (cString utf8).length ≤ maxSize ec) ∧
    (∀ p, ValidateArgs [Value.string utf8, Value.object get] = Except.ok p →
      p.data = cString utf8 ∧ p.ec_level = ec) ∧
    ((cString utf8).length = 0 ∨ maxSize ec < (cString utf8).length →
      ValidateArgs [Value.string utf8, Value.object get]
        = Except.error (JsError.RangeError "Source string length out of range")) ∧
    ((∀ b, b ∈ utf8 → b ≠ 0) → (cString utf8).length = textLength utf8) ∧
    (maxSize 0 = 2938 ∧ maxSize 1 = 2319 ∧ maxSize 2 = 1655 ∧ maxSize 3 = 1268) := by
  obtain ⟨h1, h2, h3⟩ := ValidateArgs_level_length utf8 get ec hec hrange hversion hmode hdot
    hmargin hfg hbg
  rw [sourceString_string] at h1 h2
  refine ⟨h1, ?_, h2, cString_of_no_zero utf8, h3⟩
  intro p hp
  obtain ⟨_, _, rfl⟩ := (ValidateArgs_ok utf8 get p).mp hp
  refine ⟨rfl, ?_⟩
  simp [requested, Value.Get, hec, Value.orDefault, Value.IsUndefined, Value.IntegerValue]

/-- C5 (amended) at the three-byte text `A`, zero byte, `B` with `ecLevel = H`: it is
accepted, its data is the one byte `A` and its level is H. -/
theorem C5_c_string_length_accepted_iff_within_level_maximum_witness :
    (∃ p, ValidateArgs [Value.string [65, 0, 66],
        Value.object (fieldsOf [("ecLevel", Value.int 3)])] = Except.ok p) ∧
    (∀ p, ValidateArgs [Value.string [65, 0, 66],
        Value.object (fieldsOf [("ecLevel", Value.int 3)])] = Except.ok p →
      p.data = [65] ∧ p.ec_level = 3) :=
  ⟨(C5_c_string_length_accepted_iff_within_level_maximum [65, 0, 66]
      (fieldsOf [("ecLevel", Value.int 3)]) 3 rfl (by decide) (Or.inl rfl) (Or.inl rfl)
      (Or.inl rfl) (Or.inl rfl) (Or.inl rfl) (Or.inl rfl)).1.mpr (by decide),
    (C5_c_string_length_accepted_iff_within_level_maximum [65, 0, 66]
      (fieldsOf [("ecLevel", Value.int 3)]) 3 rfl (by decide) (Or.inl rfl) (Or.inl rfl)
      (Or.inl rfl) (Or.inl rfl) (Or.inl rfl) (Or.inl rfl)).2.1⟩

/-- C6, as stated, fails: `foregroundColor = 0xFFFFFF` (16777215, not below `0xFFFFFF`) is
accepted and stored, no `RangeError` is thrown. -/
theorem C6_counterexample :
    ValidateArgs [Value.string [65],
        Value.object (fieldsOf [("foregroundColor", Value.int 0xFFFFFF)])]
      = Except.ok { Qrc_Params.new [65] with foreground_color := 16777215 } ∧
    ¬ ((16777215 : Int) < 0xFFFFFF) :=
  ⟨rfl, by decide⟩

/-- C6 (amended): for a valid text and an unsigned 32-bit integer `c` given as
`foregroundColor` (respectively `backgroundColor`), every other option absent or valid,
`ValidateArgs` accepts if and only if `c < 0x1000000` (the constant `WHITE`, 16777216), and
then stores `c`; so `0xFFFFFF` is accepted, and `c ≥ 0x1000000` is rejected with a
`RangeError` naming the colour. -/
theorem C6_colour_accepted_iff_below_white_constant (utf8 : List Nat) (get : String → Value)
    (c : Int) (hc : 0 ≤ c ∧ c ≤ 4294967295)
    (hlen : 1 ≤ (sourceString (Value.string utf8)).length ∧
      (sourceString (Value.string utf8)).length ≤ 2938)
    (hversion : (get "version").absentOrIn Value.IsInt32 1 40)
    (hec : (get "ecLevel").absentOrIn Value.IsInt32 0 3 ∧
      ((get "ecLevel").IsUndefined = false →
        (sourceString (Value.string utf8)).length ≤ maxSize (get "ecLevel").IntegerValue))
    (hmode : (get "mode").absentOrIn Value.IsInt32 0 3)
    (hdot : (get "dotSize").absentOrIn Value.IsInt32 1 50)
    (hmargin : (get "margin").absentOrIn Value.IsInt32 0 10) :
    (get "foregroundColor" = Value.int c →
      (get "backgroundColor").absentOrIn Value.IsUint32 0 16777215 →
      ((∃ p, ValidateArgs [Value.string utf8, Value.object get] = Except.ok p) ↔ c < WHITE) ∧
      (c < WHITE → ∃ p, ValidateArgs [Value.string utf8, Value.object get] = Except.ok p ∧
        p.foreground_color = c) ∧
      (WHITE ≤ c → ValidateArgs [Value.string utf8, Value.object get]
        = Except.error (JsError.RangeError "Foreground color out of range"))) ∧
    (get "backgroundColor" = Value.int c →
      (get "foregroundColor").absentOrIn Value.IsUint32 0 16777215 →
      ((∃ p, ValidateArgs [Value.string utf8, Value.object get] = Except.ok p) ↔ c < WHITE) ∧
      (c < WHITE → ∃ p, ValidateArgs [Value.string utf8, Value.object get] = Except.ok p ∧
        p.background_color = c) ∧
      (WHITE ≤ c → ValidateArgs [Value.string utf8, Value.object get]
        = Except.error (JsError.RangeError "Background color out of range"))) ∧
    WHITE = 0x1000000 := by
  have huint : (Value.int c).IsUint32 = true := by
    simp only [Value.IsUint32, decide_eq_true_eq]
    omega
  have hwhite : WHITE = 16777216 := rfl
  refine ⟨?_, ?_, rfl⟩
  · intro hfg hbg
    have hok : c < WHITE → ∃ p, ValidateArgs [Value.string utf8, Value.object get]
        = Except.ok p ∧ p.foreground_color = c := by
      intro hlt
      refine ⟨_, (ValidateArgs_ok utf8 get _).mpr ⟨hlen, ?_, rfl⟩, ?_⟩
      · refine ⟨hversion, hec, hmode, hdot, hmargin, ?_, hbg⟩
        simp only [Value.Get, hfg]
        exact Or.inr ⟨huint, hc.1, by simp only [Value.IntegerValue]; omega⟩
      · simp [requested, Value.Get, hfg, Value.orDefault, Value.IsUndefined,
          Value.IntegerValue]
    have hbad : WHITE ≤ c → ValidateArgs [Value.string utf8, Value.object get]
        = Except.error (JsError.RangeError "Foreground color out of range") := by
      intro hge
      rw [ValidateArgs_options utf8 get hlen]
      unfold checkOptions
      rw [(checkVersion_ok (Value.object get) _ _).mpr ⟨hversion, rfl⟩]
      simp only [Except.bind]
      rw [(checkEcLevel_ok (Value.object get) _ _ _).mpr ⟨hec, rfl⟩]
      simp only [Except.bind]
      rw [(checkMode_ok (Value.object get) _ _).mpr ⟨hmode, rfl⟩]
      simp only [Except.bind]
      rw [(checkDotSize_ok (Value.object get) _ _).mpr ⟨hdot, rfl⟩]
      simp only [Except.bind]
      rw [(checkMargin_ok (Value.object get) _ _).mpr ⟨hmargin, rfl⟩]
      simp only [Except.bind]
      rw [checkFgColor_range (Value.object get) _
        (by simp only [Value.Get, hfg]; exact huint)
        (by simp only [Value.Get, hfg, Value.IntegerValue]; omega)]
    refine ⟨⟨?_, fun hlt => ?_⟩, hok, hbad⟩
    · rintro ⟨p, hp⟩
      by_contra hge
      rw [hbad (by omega)] at hp
      cases hp
    · obtain ⟨p, hp, _⟩ := hok hlt
      exact ⟨p, hp⟩
  · intro hbg hfg
    have hok : c < WHITE → ∃ p, ValidateArgs [Value.string utf8, Value.object get]
        = Except.ok p ∧ p.background_color = c := by
      intro hlt
      refine ⟨_, (ValidateArgs_ok utf8 get _).mpr ⟨hlen, ?_, rfl⟩, ?_⟩
      · refine ⟨hversion, hec, hmode, hdot, hmargin, hfg, ?_⟩
        simp only [Value.Get, hbg]
        exact Or.inr ⟨huint, hc.1, by simp only [Value.IntegerValue]; omega⟩
      · simp [requested, Value.Get, hbg, Value.orDefault, Value.IsUndefined,
          Value.IntegerValue]
    have hbad : WHITE ≤ c → ValidateArgs [Value.string utf8, Value.object get]
        = Except.error (JsError.RangeError "Background color out of range") := by
      intro hge
      rw [ValidateArgs_options utf8 get hlen]
      unfold checkOptions
      rw [(checkVersion_ok (Value.object get) _ _).mpr ⟨hversion, rfl⟩]
      simp only [Except.bind]
      rw [(checkEcLevel_ok (Value.object get) _ _ _).mpr ⟨hec, rfl⟩]
      simp only [Except.bind]
      rw [(checkMode_ok (Value.object get) _ _).mpr ⟨hmode, rfl⟩]
      simp only [Except.bind]
      rw [(checkDotSize_ok (Value.object get) _ _).mpr ⟨hdot, rfl⟩]
      simp only [Except.bind]
      rw [(checkMargin_ok (Value.object get) _ _).mpr ⟨hmargin, rfl⟩]
      simp only [Except.bind]
      rw [(checkFgColor_ok (Value.object get) _ _).mpr ⟨hfg, rfl⟩]
      simp only [Except.bind]
      rw [checkBgColor_range (Value.object get) _
        (by simp only [Value.Get, hbg]; exact huint)
        (by simp only [Value.Get, hbg, Value.IntegerValue]; omega)]
    refine ⟨⟨?_, fun hlt => ?_⟩, hok, hbad⟩
    · rintro ⟨p, hp⟩
      by_contra hge
      rw [hbad (by omega)] at hp
      cases hp
    · obtain ⟨p, hp, _⟩ := hok hlt
      exact ⟨p, hp⟩

/-- C6 (amended) at the text "A" with `foregroundColor = 0xFFFFFF` and no other option. -/
theorem C6_colour_accepted_iff_below_white_constant_witness :
    (fieldsOf [("foregroundColor", Value.int 0xFFFFFF)] "foregroundColor"
        = Value.int 0xFFFFFF →
      (fieldsOf [("foregroundColor", Value.int 0xFFFFFF)] "backgroundColor").absentOrIn
        Value.IsUint32 0 16777215 →
      ((∃ p, ValidateArgs [Value.string [65],
          Value.object (fieldsOf [("foregroundColor", Value.int 0xFFFFFF)])] = Except.ok p) ↔
        (0xFFFFFF : Int) < WHITE) ∧
      ((0xFFFFFF : Int) < WHITE → ∃ p, ValidateArgs [Value.string [65],
          Value.object (fieldsOf [("foregroundColor", Value.int 0xFFFFFF)])] = Except.ok p ∧
        p.foreground_color = 0xFFFFFF) ∧
      (WHITE ≤ (0xFFFFFF : Int) → ValidateArgs [Value.string [65],
          Value.object (fieldsOf [("foregroundColor", Value.int 0xFFFFFF)])]
        = Except.error (JsError.RangeError "Foreground color out of range"))) ∧
    (fieldsOf [("foregroundColor", Value.int 0xFFFFFF)] "backgroundColor"
        = Value.int 0xFFFFFF →
      (fieldsOf [("foregroundColor", Value.int 0xFFFFFF)] "foregroundColor").absentOrIn
        Value.IsUint32 0 16777215 →
      ((∃ p, ValidateArgs [Value.string [65],
          Value.object (fieldsOf [("foregroundColor", Value.int 0xFFFFFF)])] = Except.ok p) ↔
        (0xFFFFFF : Int) < WHITE) ∧
      ((0xFFFFFF : Int) < WHITE → ∃ p, ValidateArgs [Value.string [65],
          Value.object (fieldsOf [("foregroundColor", Value.int 0xFFFFFF)])] = Except.ok p ∧
        p.background_color = 0xFFFFFF) ∧
      (WHITE ≤ (0xFFFFFF : Int) → ValidateArgs [Value.string [65],
          Value.object (fieldsOf [("foregroundColor", Value.int 0xFFFFFF)])]
        = Except.error (JsError.RangeError "Background color out of range"))) ∧
    WHITE = 0x1000000 :=
  C6_colour_accepted_iff_below_white_constant [65]
    (fieldsOf [("foregroundColor", Value.int 0xFFFFFF)]) 0xFFFFFF (by decide) (by decide)
    (Or.inl rfl) ⟨Or.inl rfl, fun h => absurd h (by decide)⟩ (Or.inl rfl) (Or.inl rfl)
    (Or.inl rfl)

theorem ValidateArgs_more (text paramsObj : Value) (more : List Value) :
    ValidateArgs (text :: paramsObj :: more) = ValidateArgs [text, paramsObj] := rfl

theorem absentOrIn_int32_iff (lo hi : Int) (v : Value)
    (hv : v.IsUndefined = true ∨ v.IsInt32 = true) :
    v.absentOrIn Value.IsInt32 lo hi ↔ v.absentOrBetween lo hi := by
  unfold Value.absentOrIn Value.absentOrBetween
  constructor
  · rintro (h | ⟨_, h⟩)
    · exact Or.inl h
    · exact Or.inr h
  · rintro (h | h)
    · exact Or.inl h
    · rcases hv with hu | ht
      · exact Or.inl hu
      · exact Or.inr ⟨ht, h⟩

theorem absentOrIn_colour_iff (v : Value)
    (hv : v.IsUndefined = true ∨ v.IsInt32 = true ∨ v.IsUint32 = true) :
    v.absentOrIn Value.IsUint32 0 16777215 ↔ v.absentOrBetween 0 16777215 := by
  unfold Value.absentOrIn Value.absentOrBetween
  constructor
  · rintro (h | ⟨_, h⟩)
    · exact Or.inl h
    · exact Or.inr h
  · rintro (h | h)
    · exact Or.inl h
    · cases v with
      | int n =>
        refine Or.inr ⟨?_, h⟩
        simp only [Value.IntegerValue] at h
        simp only [Value.IsUint32, decide_eq_true_eq]
        omega
      | undefined => exact Or.inl rfl
      | string _ => simp [Value.IsUndefined, Value.IsInt32, Value.IsUint32] at hv
      | object _ => simp [Value.IsUndefined, Value.IsInt32, Value.IsUint32] at hv
      | other => simp [Value.IsUndefined, Value.IsInt32, Value.IsUint32] at hv

theorem present_int32_of_not_between (lo hi : Int) (v : Value)
    (hv : v.IsUndefined = true ∨ v.IsInt32 = true) (h : ¬ v.absentOrBetween lo hi) :
    v.IsInt32 = true ∧ (v.IntegerValue < lo ∨ hi < v.IntegerValue) := by
  unfold Value.absentOrBetween at h
  push_neg at h
  rcases hv with hu | ht
  · exact absurd hu h.1
  · refine ⟨ht, ?_⟩
    by_contra hc
    push_neg at hc
    exact absurd (h.2 hc.1) (by omega)

theorem orDefault_bounds (isType : Value → Bool) (lo hi d lo1 hi1 : Int) (v : Value)
    (h : v.absentOrIn isType lo hi) (hd : lo1 ≤ d ∧ d ≤ hi1) (hlo : lo1 ≤ lo) (hhi : hi ≤ hi1) :
    lo1 ≤ v.orDefault d ∧ v.orDefault d ≤ hi1 := by
  unfold Value.orDefault
  by_cases hu : v.IsUndefined = true
  · rw [if_pos hu]; exact hd
  · rw [if_neg hu]
    rcases h with h | ⟨_, h1, h2⟩
    · exact absurd h hu
    · omega

/-- C7: for a valid text and an options object whose present fields are all 32-bit integers,
`ValidateArgs` accepts if and only if each present field is inside its range (`version` in
[1,40], `ecLevel` in [0,3] with the text within that level's maximum, `mode` in [0,3],
`dotSize` in [1,50], `margin` in [0,10], colours in [0, 2^24)); and a present integer field
outside its range, every field checked before it being valid, makes the call fail with the
`RangeError` naming that field; so `version = 0`, `version = 41`, `dotSize = 0`,
`dotSize = 51`, `margin = -1` and `margin = 11` are all rejected. -/
theorem C7_integer_options_accepted_iff_in_range (utf8 : List Nat) (get : String → Value)
    (hlen : 1 ≤ (sourceString (Value.string utf8)).length ∧
      (sourceString (Value.string utf8)).length ≤ 2938)
    (hv : (get "version").IsUndefined = true ∨ (get "version").IsInt32 = true)
    (he : (get "ecLevel").IsUndefined = true ∨ (get "ecLevel").IsInt32 = true)
    (hmo : (get "mode").IsUndefined = true ∨ (get "mode").IsInt32 = true)
    (hd : (get "dotSize").IsUndefined = true ∨ (get "dotSize").IsInt32 = true)
    (hma : (get "margin").IsUndefined = true ∨ (get "margin").IsInt32 = true)
    (hf : (get "foregroundColor").IsUndefined = true ∨
      (get "foregroundColor").IsInt32 = true ∨ (get "foregroundColor").IsUint32 = true)
    (hb : (get "backgroundColor").IsUndefined = true ∨
      (get "backgroundColor").IsInt32 = true ∨ (get "backgroundColor").IsUint32 = true) :
    ((∃ p, ValidateArgs [Value.string utf8, Value.object get] = Except.ok p) ↔
      (get "version").absentOrBetween 1 40 ∧
      ((get "ecLevel").absentOrBetween 0 3 ∧
        ((get "ecLevel").IsUndefined = false →
          (sourceString (Value.string utf8)).length ≤ maxSize (get "ecLevel").IntegerValue)) ∧
      (get "mode").absentOrBetween 0 3 ∧
      (get "dotSize").absentOrBetween 1 50 ∧
      (get "margin").absentOrBetween 0 10 ∧
      (get "foregroundColor").absentOrBetween 0 16777215 ∧
      (get "backgroundColor").absentOrBetween 0 16777215) ∧
    (¬ (get "version").absentOrBetween 1 40 →
      ValidateArgs [Value.string utf8, Value.object get]
        = Except.error (JsError.RangeError "Version out of range")) ∧
    ((get "version").absentOrBetween 1 40 → ¬ (get "ecLevel").absentOrBetween 0 3 →
      ValidateArgs [Value.string utf8, Value.object get]
        = Except.error (JsError.RangeError "EC level out of range")) ∧
    ((get "version").absentOrBetween 1 40 →
      ((get "ecLevel").absentOrBetween 0 3 ∧
        ((get "ecLevel").IsUndefined = false →
          (sourceString (Value.string utf8)).length ≤ maxSize (get "ecLevel").IntegerValue)) →
      ((¬ (get "mode").absentOrBetween 0 3 →
        ValidateArgs [Value.string utf8, Value.object get]
          = Except.error (JsError.RangeError "Mode out of range")) ∧
      ((get "mode").absentOrBetween 0 3 → ¬ (get "dotSize").absentOrBetween 1 50 →
        ValidateArgs [Value.string utf8, Value.object get]
          = Except.error (JsError.RangeError "Dot size out of range")) ∧
      ((get "mode").absentOrBetween 0 3 → (get "dotSize").absentOrBetween 1 50 →
        ¬ (get "margin").absentOrBetween 0 10 →
        ValidateArgs [Value.string utf8, Value.object get]
          = Except.error (JsError.RangeError "Margin size out of range")))) ∧
    (ValidateArgs [Value.string [65], Value.object (fieldsOf [("version", Value.int 0)])]
        = Except.error (JsError.RangeError "Version out of range") ∧
      ValidateArgs [Value.string [65], Value.object (fieldsOf [("version", Value.int 41)])]
        = Except.error (JsError.RangeError "Version out of range") ∧
      ValidateArgs [Value.string [65], Value.object (fieldsOf [("dotSize", Value.int 0)])]
        = Except.error (JsError.RangeError "Dot size out of range") ∧
      ValidateArgs [Value.string [65], Value.object (fieldsOf [("dotSize", Value.int 51)])]
        = Except.error (JsError.RangeError "Dot size out of range") ∧
      ValidateArgs [Value.string [65], Value.object (fieldsOf [("margin", Value.int (-1))])]
        = Except.error (JsError.RangeError "Margin size out of range") ∧
      ValidateArgs [Value.string [65], Value.object (fieldsOf [("margin", Value.int 11)])]
        = Except.error (JsError.RangeError "Margin size out of range")) := by
  have iv := absentOrIn_int32_iff 1 40 _ hv
  have ie := absentOrIn_int32_iff 0 3 _ he
  have imo := absentOrIn_int32_iff 0 3 _ hmo
  have id := absentOrIn_int32_iff 1 50 _ hd
  have ima := absentOrIn_int32_iff 0 10 _ hma
  have ifg := absentOrIn_colour_iff _ hf
  have ibg := absentOrIn_colour_iff _ hb
  refine ⟨?_, ?_, ?_, ?_, ⟨rfl, rfl, rfl, rfl, rfl, rfl⟩⟩
  · constructor
    · rintro ⟨p, hp⟩
      obtain ⟨_, ⟨h1, h2, h3, h4, h5, h6, h7⟩, _⟩ := (ValidateArgs_ok utf8 get p).mp hp
      simp only [Value.Get] at h1 h2 h3 h4 h5 h6 h7
      exact ⟨iv.mp h1, ⟨ie.mp h2.1, h2.2⟩, imo.mp h3, id.mp h4, ima.mp h5, ifg.mp h6,
        ibg.mp h7⟩
    · rintro ⟨h1, h2, h3, h4, h5, h6, h7⟩
      refine ⟨_, (ValidateArgs_ok utf8 get _).mpr ⟨hlen, ?_, rfl⟩⟩
      exact ⟨iv.mpr h1, ⟨ie.mpr h2.1, h2.2⟩, imo.mpr h3, id.mpr h4, ima.mpr h5, ifg.mpr h6,
        ibg.mpr h7⟩
  · intro hbad
    obtain ⟨ht, hr⟩ := present_int32_of_not_between 1 40 _ hv hbad
    rw [ValidateArgs_options utf8 get hlen]
    unfold checkOptions
    rw [checkVersion_range (Value.object get) _ ht hr]
    rfl
  · intro h1 hbad
    obtain ⟨ht, hr⟩ := present_int32_of_not_between 0 3 _ he hbad
    rw [ValidateArgs_options utf8 get hlen]
    unfold checkOptions
    rw [(checkVersion_ok (Value.object get) _ _).mpr ⟨iv.mpr h1, rfl⟩]
    simp only [Except.bind]
    rw [checkEcLevel_range (Value.object get) _ _ ht hr]
  · intro h1 h2
    obtain ⟨q, hq⟩ : ∃ q, ValidateArgs [Value.string utf8, Value.object get]
        = (checkMode (Value.object get) q).bind fun p3 =>
          (checkDotSize (Value.object get) p3).bind fun p4 =>
          (checkMargin (Value.object get) p4).bind fun p5 =>
          (checkFgColor (Value.object get) p5).bind fun p6 =>
          checkBgColor (Value.object get) p6 := by
      refine ⟨?q, ?_⟩
      case q =>
        exact { Qrc_Params.new (sourceString (Value.string utf8)) with
          version := (get "version").orDefault 0
          ec_level := (get "ecLevel").orDefault 0 }
      rw [ValidateArgs_options utf8 get hlen]
      unfold checkOptions
      rw [(checkVersion_ok (Value.object get) _ _).mpr ⟨iv.mpr h1, rfl⟩]
      simp only [Except.bind]
      rw [(checkEcLevel_ok (Value.object get) _ _ _).mpr ⟨⟨ie.mpr h2.1, h2.2⟩, rfl⟩]
      rfl
    refine ⟨?_, ?_, ?_⟩
    · intro hbad
      obtain ⟨ht, hr⟩ := present_int32_of_not_between 0 3 _ hmo hbad
      rw [hq, checkMode_range (Value.object get) _ ht hr]
      rfl
    · intro h3 hbad
      obtain ⟨ht, hr⟩ := present_int32_of_not_between 1 50 _ hd hbad
      rw [hq, (checkMode_ok (Value.object get) _ _).mpr ⟨imo.mpr h3, rfl⟩]
      simp only [Except.bind]
      rw [checkDotSize_range (Value.object get) _ ht hr]
    · intro h3 h4 hbad
      obtain ⟨ht, hr⟩ := present_int32_of_not_between 0 10 _ hma hbad
      rw [hq, (checkMode_ok (Value.object get) _ _).mpr ⟨imo.mpr h3, rfl⟩]
      simp only [Except.bind]
      rw [(checkDotSize_ok (Value.object get) _ _).mpr ⟨id.mpr h4, rfl⟩]
      simp only [Except.bind]
      rw [checkMargin_range (Value.object get) _ ht hr]

/-- C7 at the text "A" with the options `version = 7, dotSize = 51`: the first conjunct of
C7 says the call is not accepted, because 51 is outside [1,50]. -/
theorem C7_integer_options_accepted_iff_in_range_witness :
    ¬ ∃ p, ValidateArgs [Value.string [65],
      Value.object (fieldsOf [("version", Value.int 7), ("dotSize", Value.int 51)])]
        = Except.ok p :=
  fun hp =>
    absurd
      (((C7_integer_options_accepted_iff_in_range [65]
        (fieldsOf [("version", Value.int 7), ("dotSize", Value.int 51)]) (by decide)
        (Or.inr rfl) (Or.inl rfl) (Or.inl rfl) (Or.inr rfl) (Or.inl rfl) (Or.inl rfl)
        (Or.inl rfl)).1.mp hp).2.2.2.1)
      (by
        unfold Value.absentOrBetween
        decide)

theorem ValidateArgs_not_object (text paramsObj : Value) (p : Qrc_Params)
    (hobj : paramsObj.IsObject = false) : ValidateArgs [text, paramsObj] ≠ Except.ok p := by
  unfold ValidateArgs
  simp only [hobj]
  split_ifs with h1 h2 h3
  · simp
  · simp
  · simp
  · simp at h3

/-- A text whose string of line 74 has 1 to 2938 bytes: the call without options, and the
call with options, in terms of `requested`. -/
theorem ValidateArgs_defaults (utf8 : List Nat)
    (hlen : 1 ≤ (sourceString (Value.string utf8)).length ∧
      (sourceString (Value.string utf8)).length ≤ 2938) :
    ValidateArgs [Value.string utf8]
      = Except.ok
        { data := sourceString (Value.string utf8)
          ec_level := QR_ECLEVEL_L
          mode := QR_MODE_8
          version := 0
          dot_size := 3
          margin := 4
          foreground_color := 0x000000
          background_color := 0xFFFFFF } ∧
    (∀ get : String → Value, (∀ key, get key = Value.undefined) →
      ValidateArgs [Value.string utf8, Value.object get] = ValidateArgs [Value.string utf8]) ∧
    (∀ get : String → Value, optionsValid (sourceString (Value.string utf8)) (Value.object get) →
      ValidateArgs [Value.string utf8, Value.object get]
        = Except.ok (requested (sourceString (Value.string utf8)) (Value.object get))) ∧
    (∀ (get : String → Value) (p : Qrc_Params),
      ValidateArgs [Value.string utf8, Value.object get] = Except.ok p →
      p.data = sourceString (Value.string utf8) ∧
      p.ec_level = (if (get "ecLevel").IsUndefined then QR_ECLEVEL_L
        else (get "ecLevel").IntegerValue) ∧
      p.mode = (if (get "mode").IsUndefined then QR_MODE_8 else (get "mode").IntegerValue) ∧
      p.version = (if (get "version").IsUndefined then 0 else (get "version").IntegerValue) ∧
      p.dot_size = (if (get "dotSize").IsUndefined then 3 else (get "dotSize").IntegerValue) ∧
      p.margin = (if (get "margin").IsUndefined then 4 else (get "margin").IntegerValue) ∧
      p.foreground_color = (if (get "foregroundColor").IsUndefined then 0x000000
        else (get "foregroundColor").IntegerValue) ∧
      p.background_color = (if (get "backgroundColor").IsUndefined then 0xFFFFFF
        else (get "backgroundColor").IntegerValue)) := by
  have hmax : maxSize 0 = 2938 := rfl
  have hplain : ValidateArgs [Value.string utf8]
      = Except.ok (Qrc_Params.new (sourceString (Value.string utf8))) := by
    unfold ValidateArgs
    simp only [Value.IsString, hmax]
    rw [if_neg (by simp), if_neg (by omega)]
  refine ⟨hplain, ?_, ?_, ?_⟩
  · intro get hget
    rw [hplain, ValidateArgs_ok]
    refine ⟨hlen, ?_, ?_⟩
    · simp only [optionsValid, Value.Get, hget]
      exact ⟨Or.inl rfl, ⟨Or.inl rfl, fun h => absurd h (by decide)⟩, Or.inl rfl, Or.inl rfl,
        Or.inl rfl, Or.inl rfl, Or.inl rfl⟩
    · simp [requested, Value.Get, hget, Value.orDefault, Value.IsUndefined, Qrc_Params.new,
        QR_ECLEVEL_L, QR_MODE_8]
  · intro get hvalid
    exact (ValidateArgs_ok utf8 get _).mpr ⟨hlen, hvalid, rfl⟩
  · intro get p hp
    obtain ⟨_, _, rfl⟩ := (ValidateArgs_ok utf8 get p).mp hp
    exact ⟨rfl, rfl, rfl, rfl, rfl, rfl, rfl, rfl⟩

theorem absentOrIn_ofOption_int32 (o : Option Int) (lo hi : Int)
    (hlo : -2147483648 ≤ lo) (hhi : hi ≤ 2147483647)
    (h : ∀ n, o = some n → lo ≤ n ∧ n ≤ hi) :
    (Value.ofOption o).absentOrIn Value.IsInt32 lo hi := by
  cases o with
  | none => exact Or.inl rfl
  | some n =>
    obtain ⟨h1, h2⟩ := h n rfl
    refine Or.inr ⟨?_, h1, h2⟩
    simp only [Value.ofOption, Value.IsInt32, decide_eq_true_eq]
    omega

theorem absentOrIn_ofOption_colour (o : Option Int)
    (h : ∀ n, o = some n → 0 ≤ n ∧ n < 16777216) :
    (Value.ofOption o).absentOrIn Value.IsUint32 0 16777215 := by
  cases o with
  | none => exact Or.inl rfl
  | some n =>
    obtain ⟨h1, h2⟩ := h n rfl
    refine Or.inr ⟨?_, h1, Int.lt_add_one_iff.mp h2⟩
    simp only [Value.ofOption, Value.IsUint32, decide_eq_true_eq]
    omega

theorem orDefault_ofOption (o : Option Int) (d : Int) :
    (Value.ofOption o).orDefault d = o.getD d := by
  cases o <;> rfl

theorem orDefault_undefined (v : Value) (d : Int) (h : v = Value.undefined) :
    v.orDefault d = d := by
  rw [h]; rfl

theorem orDefault_int (v : Value) (d n : Int) (h : v = Value.int n) : v.orDefault d = n := by
  rw [h]; rfl

/-- C8, as stated, fails: the two-byte text zero byte, `A` has a length in [1, 2938], yet
`ValidateArgs` called with no options returns no record but the length error. -/
theorem C8_counterexample :
    textLength [0, 65] = 2 ∧
    ValidateArgs [Value.string [0, 65]]
      = Except.error (JsError.RangeError "Source string length out of range") :=
  ⟨rfl, rfl⟩

/-- C8 (amended): for every text that has between 1 and 2938 bytes before its first zero byte
(every text of 1 to 2938 bytes without a zero byte), `ValidateArgs` called with no options,
or with an options object all of whose fields are undefined, returns the record holding
those bytes and the defaults `ecLevel = L`, `mode = Byte`, `version = 0`, `dotSize = 3`,
`margin = 4`, `foreground = 0x000000`, `background = 0xFFFFFF`; called with options of
which some are specified as valid integers, it returns the record in which each specified
field holds exactly the specified integer and every other field its default; and in any
record it returns, an undefined field has its default and a field given as the integer `n`
holds `n`. -/
theorem C8_unspecified_fields_take_defaults (utf8 : List Nat)
    (hlen : 1 ≤ (cString utf8).length ∧ (cString utf8).length ≤ 2938) :
    ValidateArgs [Value.string utf8]
      = Except.ok
        { data := cString utf8
          ec_level := QR_ECLEVEL_L
          mode := QR_MODE_8
          version := 0
          dot_size := 3
          margin := 4
          foreground_color := 0x000000
          background_color := 0xFFFFFF } ∧
    (∀ get : String → Value, (∀ key, get key = Value.undefined) →
      ValidateArgs [Value.string utf8, Value.object get]
        = Except.ok
          { data := cString utf8
            ec_level := QR_ECLEVEL_L
            mode := QR_MODE_8
            version := 0
            dot_size := 3
            margin := 4
            foreground_color := 0x000000
            background_color := 0xFFFFFF }) ∧
    (∀ (get : String → Value)
      (version ecLevel mode dotSize margin foregroundColor backgroundColor : Option Int),
      get "version" = Value.ofOption version → get "ecLevel" = Value.ofOption ecLevel →
      get "mode" = Value.ofOption mode → get "dotSize" = Value.ofOption dotSize →
      get "margin" = Value.ofOption margin →
      get "foregroundColor" = Value.ofOption foregroundColor →
      get "backgroundColor" = Value.ofOption backgroundColor →
      (∀ n, version = some n → 1 ≤ n ∧ n ≤ 40) →
      (∀ n, ecLevel = some n → (0 ≤ n ∧ n ≤ 3) ∧ (cString utf8).length ≤ maxSize n) →
      (∀ n, mode = some n → 0 ≤ n ∧ n ≤ 3) →
      (∀ n, dotSize = some n → 1 ≤ n ∧ n ≤ 50) →
      (∀ n, margin = some n → 0 ≤ n ∧ n ≤ 10) →
      (∀ n, foregroundColor = some n → 0 ≤ n ∧ n < 16777216) →
      (∀ n, backgroundColor = some n → 0 ≤ n ∧ n < 16777216) →
      ValidateArgs [Value.string utf8, Value.object get]
        = Except.ok
          { data := cString utf8
            ec_level := ecLevel.getD QR_ECLEVEL_L
            mode := mode.getD QR_MODE_8
            version := version.getD 0
            dot_size := dotSize.getD 3
            margin := margin.getD 4
            foreground_color := foregroundColor.getD 0x000000
            background_color := backgroundColor.getD 0xFFFFFF }) ∧
    (∀ (get : String → Value) (p : Qrc_Params),
      ValidateArgs [Value.string utf8, Value.object get] = Except.ok p →
      p.data = cString utf8 ∧
      ((get "ecLevel" = Value.undefined → p.ec_level = QR_ECLEVEL_L) ∧
        ∀ n, get "ecLevel" = Value.int n → p.ec_level = n) ∧
      ((get "mode" = Value.undefined → p.mode = QR_MODE_8) ∧
        ∀ n, get "mode" = Value.int n → p.mode = n) ∧
      ((get "version" = Value.undefined → p.version = 0) ∧
        ∀ n, get "version" = Value.int n → p.version = n) ∧
      ((get "dotSize" = Value.undefined → p.dot_size = 3) ∧
        ∀ n, get "dotSize" = Value.int n → p.dot_size = n) ∧
      ((get "margin" = Value.undefined → p.margin = 4) ∧
        ∀ n, get "margin" = Value.int n → p.margin = n) ∧
      ((get "foregroundColor" = Value.undefined → p.foreground_color = 0x000000) ∧
        ∀ n, get "foregroundColor" = Value.int n → p.foreground_color = n) ∧
      ((get "backgroundColor" = Value.undefined → p.background_color = 0xFFFFFF) ∧
        ∀ n, get "backgroundColor" = Value.int n → p.background_color = n)) ∧
    ((∀ b, b ∈ utf8 → b ≠ 0) → (cString utf8).length = textLength utf8) := by
  have hlen1 : 1 ≤ (sourceString (Value.string utf8)).length ∧
      (sourceString (Value.string utf8)).length ≤ 2938 := hlen
  obtain ⟨hplain, hnone, _, _⟩ := ValidateArgs_defaults utf8 hlen1
  refine ⟨hplain, ?_, ?_, ?_, cString_of_no_zero utf8⟩
  · intro get hget
    rw [hnone get hget]
    exact hplain
  · intro get version ecLevel mode dotSize margin foregroundColor backgroundColor
      g1 g2 g3 g4 g5 g6 g7 hv he hmo hd hma hf hb
    rw [ValidateArgs_ok]
    refine ⟨hlen1, ?_, ?_⟩
    · unfold optionsValid
      simp only [Value.Get, g1, g2, g3, g4, g5, g6, g7]
      refine ⟨absentOrIn_ofOption_int32 _ 1 40 (by decide) (by decide) hv,
        ⟨absentOrIn_ofOption_int32 _ 0 3 (by decide) (by decide) (fun n h => (he n h).1), ?_⟩,
        absentOrIn_ofOption_int32 _ 0 3 (by decide) (by decide) hmo,
        absentOrIn_ofOption_int32 _ 1 50 (by decide) (by decide) hd,
        absentOrIn_ofOption_int32 _ 0 10 (by decide) (by decide) hma,
        absentOrIn_ofOption_colour _ hf, absentOrIn_ofOption_colour _ hb⟩
      intro hpresent
      cases ecLevel with
      | none => simp [Value.ofOption, Value.IsUndefined] at hpresent
      | some n => exact (he n rfl).2
    · unfold requested
      simp only [Value.Get, g1, g2, g3, g4, g5, g6, g7, orDefault_ofOption]
      rfl
  · intro get p hp
    obtain ⟨_, _, rfl⟩ := (ValidateArgs_ok utf8 get p).mp hp
    exact ⟨rfl,
      ⟨orDefault_undefined _ _, fun n => orDefault_int _ _ n⟩,
      ⟨orDefault_undefined _ _, fun n => orDefault_int _ _ n⟩,
      ⟨orDefault_undefined _ _, fun n => orDefault_int _ _ n⟩,
      ⟨orDefault_undefined _ _, fun n => orDefault_int _ _ n⟩,
      ⟨orDefault_undefined _ _, fun n => orDefault_int _ _ n⟩,
      ⟨orDefault_undefined _ _, fun n => orDefault_int _ _ n⟩,
      ⟨orDefault_undefined _ _, fun n => orDefault_int _ _ n⟩⟩

/-- C8 (amended) at the text "A" with `margin = 7` and `foregroundColor = 0xFF0000` specified:
the record holds 7 and 0xFF0000 there and the defaults elsewhere. -/
theorem C8_unspecified_fields_take_defaults_witness :
    ValidateArgs [Value.string [65], Value.object (fieldsOf
        [("margin", Value.int 7), ("foregroundColor", Value.int 0xFF0000)])]
      = Except.ok
        { data := [65]
          ec_level := 0
          mode := 2
          version := 0
          dot_size := 3
          margin := 7
          foreground_color := 0xFF0000
          background_color := 0xFFFFFF } :=
  (C8_unspecified_fields_take_defaults [65] (by decide)).2.2.1
    (fieldsOf [("margin", Value.int 7), ("foregroundColor", Value.int 0xFF0000)])
    none none none none (some 7) (some 0xFF0000) none rfl rfl rfl rfl rfl rfl rfl
    (fun _ h => nomatch h) (fun _ h => nomatch h) (fun _ h => nomatch h)
    (fun _ h => nomatch h)
    (fun n h => by cases h; decide)
    (fun n h => by cases h; decide)
    (fun _ h => nomatch h)

/-- C9: whenever `ValidateArgs` succeeds, the record it returns has `version` in [0,40],
`dotSize` in [1,50], `margin` in [0,10], `ecLevel` in {L,M,Q,H} (0..3), `mode` in
{Numeric, AlphaNumeric, Byte, Kanji} (0..3), both colours in `[0, 2^24)`, and its text is
the source string, of length at least 1 and at most `max[ecLevel]` with
`max = [2938, 2319, 1655, 1268]`. -/
theorem C9_accepted_record_is_in_range (args : List Value) (p : Qrc_Params)
    (h : ValidateArgs args = Except.ok p) :
    (0 ≤ p.version ∧ p.version ≤ 40) ∧ (1 ≤ p.dot_size ∧ p.dot_size ≤ 50) ∧
    (0 ≤ p.margin ∧ p.margin ≤ 10) ∧
    (QR_ECLEVEL_L ≤ p.ec_level ∧ p.ec_level ≤ QR_ECLEVEL_H) ∧
    (QR_MODE_NUM ≤ p.mode ∧ p.mode ≤ QR_MODE_KANJI) ∧
    (0 ≤ p.foreground_color ∧ p.foreground_color < 2 ^ 24) ∧
    (0 ≤ p.background_color ∧ p.background_color < 2 ^ 24) ∧
    (∃ text rest, args = text :: rest ∧ p.data = sourceString text) ∧
    (1 ≤ p.data.length ∧ p.data.length ≤ maxSize p.ec_level) ∧
    QRC_MAX_SIZE = [2938, 2319, 1655, 1268] := by
  have hmax : maxSize 0 = 2938 := rfl
  cases args with
  | nil => simp [ValidateArgs] at h
  | cons text rest =>
    cases text with
    | string utf8 =>
      by_cases hlen : 1 ≤ (sourceString (Value.string utf8)).length ∧
          (sourceString (Value.string utf8)).length ≤ 2938
      · cases rest with
        | nil =>
          unfold ValidateArgs at h
          simp only [Value.IsString, hmax] at h
          rw [if_neg (by simp), if_neg (by omega)] at h
          cases h
          refine ⟨?_, ?_, ?_, ?_, ?_, ?_, ?_, ⟨_, _, rfl, rfl⟩, ⟨hlen.1, ?_⟩, rfl⟩
          iterate 7
            simp [Qrc_Params.new, QR_ECLEVEL_L, QR_ECLEVEL_H, QR_MODE_NUM, QR_MODE_8,
              QR_MODE_KANJI]
          show _ ≤ maxSize 0
          rw [hmax]
          exact hlen.2
        | cons paramsObj more =>
          rw [ValidateArgs_more] at h
          cases paramsObj with
          | object get =>
            obtain ⟨_, ⟨h1, h2, h3, h4, h5, h6, h7⟩, rfl⟩ := (ValidateArgs_ok utf8 get p).mp h
            refine ⟨orDefault_bounds _ 1 40 0 0 40 _ h1 (by decide) (by decide) (by decide),
              orDefault_bounds _ 1 50 3 1 50 _ h4 (by decide) (by decide) (by decide),
              orDefault_bounds _ 0 10 4 0 10 _ h5 (by decide) (by decide) (by decide),
              orDefault_bounds _ 0 3 0 0 3 _ h2.1 (by decide) (by decide) (by decide),
              orDefault_bounds _ 0 3 2 0 3 _ h3 (by decide) (by decide) (by decide),
              ?_, ?_, ⟨_, _, rfl, rfl⟩, ⟨hlen.1, ?_⟩, rfl⟩
            · have := orDefault_bounds _ 0 16777215 0 0 16777215 _ h6 (by decide) (by decide)
                (by decide)
              exact ⟨this.1, by have := this.2; simp only [requested]; omega⟩
            · have := orDefault_bounds _ 0 16777215 0xFFFFFF 0 16777215 _ h7 (by decide)
                (by decide) (by decide)
              exact ⟨this.1, by have := this.2; simp only [requested]; omega⟩
            · show _ ≤ maxSize (((Value.object get).Get "ecLevel").orDefault 0)
              unfold Value.orDefault
              by_cases hu : ((Value.object get).Get "ecLevel").IsUndefined = true
              · rw [if_pos hu, hmax]
                exact hlen.2
              · rw [if_neg hu]
                exact h2.2 (by simpa using hu)
          | undefined => exact absurd h (ValidateArgs_not_object _ _ _ rfl)
          | string _ => exact absurd h (ValidateArgs_not_object _ _ _ rfl)
          | int _ => exact absurd h (ValidateArgs_not_object _ _ _ rfl)
          | other => exact absurd h (ValidateArgs_not_object _ _ _ rfl)
      · unfold ValidateArgs at h
        simp only [Value.IsString, hmax] at h
        rw [if_neg (by simp), if_pos (by omega)] at h
        cases h
    | undefined => simp [ValidateArgs, Value.IsString] at h
    | int _ => simp [ValidateArgs, Value.IsString] at h
    | object _ => simp [ValidateArgs, Value.IsString] at h
    | other => simp [ValidateArgs, Value.IsString] at h

/-- C9 at the text "AB" with the options `ecLevel = H, margin = 10`. -/
theorem C9_accepted_record_is_in_range_witness :
    (0 ≤ (requested [65, 66] (Value.object (fieldsOf [("ecLevel", Value.int 3),
        ("margin", Value.int 10)]))).margin ∧
      (requested [65, 66] (Value.object (fieldsOf [("ecLevel", Value.int 3),
        ("margin", Value.int 10)]))).margin ≤ 10) :=
  (C9_accepted_record_is_in_range
    [Value.string [65, 66],
      Value.object (fieldsOf [("ecLevel", Value.int 3), ("margin", Value.int 10)])]
    (requested [65, 66] (Value.object (fieldsOf [("ecLevel", Value.int 3),
      ("margin", Value.int 10)])))
    rfl).2.2.1

/-! ## The output sink -/

theorem realloc_length (block : List Nat) (nsize : Nat) (junk : Nat → Nat) :
    (realloc block nsize junk).length = nsize := by
  simp [realloc]

theorem realloc_take (block : List Nat) (nsize : Nat) (junk : Nat → Nat)
    (h : block.length ≤ nsize) : (realloc block nsize junk).take block.length = block := by
  apply List.ext_getElem?
  intro i
  unfold realloc
  rw [List.getElem?_take]
  by_cases hi : i < block.length
  · rw [if_pos hi, List.getElem?_map, List.getElem?_range (by omega)]
    simp [List.getD, List.getElem?_eq_getElem hi]
  · rw [if_neg hi, List.getElem?_eq_none (by omega)]

/-- A write whose `realloc` succeeds and whose sizes do not wrap appends the bytes. -/
theorem Qrc_png_write_buffer_appends (junk : Nat → Nat) (b : Qrc_Png_Buffer)
    (src : List Nat) (hwf : b.data.length = b.size) (hfit : b.size + src.length < 2 ^ 64) :
    Qrc_png_write_buffer true junk b src
      = Except.ok { data := b.data ++ src, size := b.size + src.length } := by
  obtain ⟨data, size⟩ := b
  simp only at hwf hfit
  subst hwf
  have hmod : (data.length + src.length) % 2 ^ 64 = data.length + src.length :=
    Nat.mod_eq_of_lt hfit
  have hlen := realloc_length data (data.length + src.length) junk
  have htake := realloc_take data (data.length + src.length) junk (by omega)
  unfold Qrc_png_write_buffer memcpy
  simp only [hmod, hlen, le_refl, if_true, Bool.not_true, Bool.false_eq_true, if_false]
  rw [htake, List.drop_of_length_le (by rw [hlen]), List.append_nil]

/-- A write that returns had a successful `realloc` and sizes that did not wrap. -/
theorem Qrc_png_write_buffer_returns (reallocOk : Bool) (junk : Nat → Nat)
    (b b1 : Qrc_Png_Buffer) (src : List Nat)
    (h : Qrc_png_write_buffer reallocOk junk b src = Except.ok b1) :
    reallocOk = true ∧ b.size + src.length < 2 ^ 64 := by
  unfold Qrc_png_write_buffer memcpy at h
  cases reallocOk with
  | false => simp at h
  | true =>
    refine ⟨rfl, ?_⟩
    simp only [Bool.not_true, Bool.false_eq_true, if_false, realloc_length] at h
    by_contra hbig
    have hlt : (b.size + src.length) % 2 ^ 64 < 2 ^ 64 := Nat.mod_lt _ (by decide)
    rw [if_neg (by omega)] at h
    cases h

theorem writeAll_appends (junk : Nat → Nat) (calls : List (Bool × List Nat)) :
    ∀ (b b1 : Qrc_Png_Buffer), b.data.length = b.size →
      writeAll junk b calls = Except.ok b1 →
      b1.data = b.data ++ (calls.map Prod.snd).flatten ∧ b1.data.length = b1.size ∧
        b.size ≤ b1.size := by
  induction calls with
  | nil =>
    intro b b1 hwf h
    simp only [writeAll, Except.ok.injEq] at h
    subst h
    simp [hwf]
  | cons call rest ih =>
    intro b b1 hwf h
    obtain ⟨reallocOk, src⟩ := call
    unfold writeAll at h
    cases hw : Qrc_png_write_buffer reallocOk junk b src with
    | error e => rw [hw] at h; cases h
    | ok b2 =>
      rw [hw] at h
      simp only at h
      obtain ⟨hr, hfit⟩ := Qrc_png_write_buffer_returns reallocOk junk b b2 src hw
      subst hr
      rw [Qrc_png_write_buffer_appends junk b src hwf hfit] at hw
      cases hw
      obtain ⟨h1, h2, h3⟩ := ih _ b1 (by simp [hwf]) h
      refine ⟨?_, h2, ?_⟩
      · rw [h1]
        simp
      · simp only at h3
        omega

/-- C10: for every sink holding `s` (with `size = |s|`) and every byte sequence `src`, a
`Qrc_png_write_buffer` call that returns leaves the sink holding `s ++ src` with size
`|s| + |src|` (the first `|s|` bytes unchanged); such a call does return whenever `realloc`
succeeds and the size fits `size_t`; and after any run of writes that all return, started
on the empty sink, the sink holds the concatenation of the chunks, the size from any
state on never decreasing. -/
theorem C10_sink_write_appends (junk : Nat → Nat) (b : Qrc_Png_Buffer)
    (hwf : b.data.length = b.size) :
    (∀ (reallocOk : Bool) (src : List Nat) (b1 : Qrc_Png_Buffer),
      Qrc_png_write_buffer reallocOk junk b src = Except.ok b1 →
      b1.data = b.data ++ src ∧ b1.size = b.size + src.length ∧
        b1.data.take b.size = b.data) ∧
    (∀ src : List Nat, b.size + src.length < 2 ^ 64 →
      Qrc_png_write_buffer true junk b src
        = Except.ok { data := b.data ++ src, size := b.size + src.length }) ∧
    (∀ (calls : List (Bool × List Nat)) (b1 : Qrc_Png_Buffer),
      writeAll junk Qrc_Png_Buffer.new calls = Except.ok b1 →
      b1.data = (calls.map Prod.snd).flatten ∧ b1.size = b1.data.length) ∧
    (∀ (calls : List (Bool × List Nat)) (b1 : Qrc_Png_Buffer),
      writeAll junk b calls = Except.ok b1 →
      b1.data = b.data ++ (calls.map Prod.snd).flatten ∧ b.size ≤ b1.size) := by
  refine ⟨?_, ?_, ?_, ?_⟩
  · intro reallocOk src b1 h
    obtain ⟨hr, hfit⟩ := Qrc_png_write_buffer_returns reallocOk junk b b1 src h
    subst hr
    rw [Qrc_png_write_buffer_appends junk b src hwf hfit] at h
    cases h
    refine ⟨rfl, rfl, ?_⟩
    simp [← hwf]
  · intro src hfit
    exact Qrc_png_write_buffer_appends junk b src hwf hfit
  · intro calls b1 h
    obtain ⟨h1, h2, _⟩ := writeAll_appends junk calls Qrc_Png_Buffer.new b1 rfl h
    exact ⟨by simpa [Qrc_Png_Buffer.new] using h1, h2.symm⟩
  · intro calls b1 h
    obtain ⟨h1, _, h3⟩ := writeAll_appends junk calls b b1 hwf h
    exact ⟨h1, h3⟩

/-- C10 at the empty sink: writing the three bytes 1, 2, 3 leaves exactly them. -/
theorem C10_sink_write_appends_witness :
    Qrc_png_write_buffer true (fun _ => 9) Qrc_Png_Buffer.new [1, 2, 3]
      = Except.ok { data := Qrc_Png_Buffer.new.data ++ [1, 2, 3],
                    size := Qrc_Png_Buffer.new.size + [1, 2, 3].length } :=
  (C10_sink_write_appends (fun _ => 9) Qrc_Png_Buffer.new rfl).2.1 [1, 2, 3] (by decide)

/-! ## The palette -/

theorem paletteEntry_natCast (c : Nat) :
    paletteEntry (c : Int)
      = { red := (c >>> 16) &&& 0xFF, green := (c >>> 8) &&& 0xFF, blue := c &&& 0xFF } := by
  have hland : ∀ a : Nat, toByte (Int.land (a : Int) 0xFF) = a &&& 0xFF := by
    intro a
    have h1 : Int.land (a : Int) 0xFF = ((a &&& 0xFF : Nat) : Int) := rfl
    have h2 : a &&& 0xFF = a % 256 := Nat.and_pow_two_sub_one_eq_mod a 8
    rw [h1, h2]
    unfold toByte
    omega
  unfold paletteEntry
  have h16 : toByte (Int.land ((c : Int) >>> 16) 0xFF) = (c >>> 16) &&& 0xFF := hland (c >>> 16)
  have h8 : toByte (Int.land ((c : Int) >>> 8) 0xFF) = (c >>> 8) &&& 0xFF := hland (c >>> 8)
  rw [h16, h8, hland]

theorem paletteEntry_parts (c : Nat) :
    (c >>> 16) &&& 0xFF = c / 65536 % 256 ∧ (c >>> 8) &&& 0xFF = c / 256 % 256 ∧
      c &&& 0xFF = c % 256 := by
  refine ⟨?_, ?_, ?_⟩
  · rw [Nat.shiftRight_eq_div_pow]
    exact Nat.and_pow_two_sub_one_eq_mod _ 8
  · rw [Nat.shiftRight_eq_div_pow]
    exact Nat.and_pow_two_sub_one_eq_mod _ 8
  · exact Nat.and_pow_two_sub_one_eq_mod _ 8

/-- C11: for a request whose `backgroundColor` is `bg` and whose `foregroundColor` is `fg`,
both in `[0, 2^24)`, the palette built in `EncodePNG` has exactly two entries, entry 0 =
`((bg >> 16) & 0xFF, (bg >> 8) & 0xFF, bg & 0xFF)` and entry 1 the same of `fg`; every
component is in [0,255]; `red * 65536 + green * 256 + blue` gives the colour back; and two
24-bit colours with the same entry are equal. -/
theorem C11_palette_entries_split_the_colour (params : Qrc_Params) (bg fg : Nat)
    (hbg : params.background_color = bg) (hfg : params.foreground_color = fg)
    (hbg24 : bg < 2 ^ 24) (hfg24 : fg < 2 ^ 24) :
    (png_plte params).length = 2 ∧
    (png_plte params)[0]?
      = some { red := (bg >>> 16) &&& 0xFF, green := (bg >>> 8) &&& 0xFF, blue := bg &&& 0xFF } ∧
    (png_plte params)[1]?
      = some { red := (fg >>> 16) &&& 0xFF, green := (fg >>> 8) &&& 0xFF, blue := fg &&& 0xFF } ∧
    (∀ e, e ∈ png_plte params → e.red ≤ 255 ∧ e.green ≤ 255 ∧ e.blue ≤ 255) ∧
    (paletteEntry bg).red * 65536 + (paletteEntry bg).green * 256 + (paletteEntry bg).blue
      = bg ∧
    (paletteEntry fg).red * 65536 + (paletteEntry fg).green * 256 + (paletteEntry fg).blue
      = fg ∧
    (∀ c1 c2 : Nat, c1 < 2 ^ 24 → c2 < 2 ^ 24 →
      paletteEntry (c1 : Int) = paletteEntry (c2 : Int) → c1 = c2) := by
  have hback : ∀ c : Nat, c < 2 ^ 24 →
      (paletteEntry c).red * 65536 + (paletteEntry c).green * 256 + (paletteEntry c).blue
        = c := by
    intro c hc
    obtain ⟨h1, h2, h3⟩ := paletteEntry_parts c
    rw [paletteEntry_natCast]
    simp only [h1, h2, h3]
    omega
  have hbyte : ∀ c : Nat, (paletteEntry c).red ≤ 255 ∧ (paletteEntry c).green ≤ 255 ∧
      (paletteEntry c).blue ≤ 255 := by
    intro c
    obtain ⟨h1, h2, h3⟩ := paletteEntry_parts c
    rw [paletteEntry_natCast]
    simp only [h1, h2, h3]
    omega
  refine ⟨rfl, ?_, ?_, ?_, hback bg hbg24, hback fg hfg24, ?_⟩
  · simp [png_plte, hbg, paletteEntry_natCast]
  · simp [png_plte, hfg, paletteEntry_natCast]
  · intro e he
    simp only [png_plte, hbg, hfg, List.mem_cons, List.mem_singleton, List.not_mem_nil,
      or_false] at he
    rcases he with rfl | rfl
    · exact hbyte bg
    · exact hbyte fg
  · intro c1 c2 h1 h2 heq
    have e1 := hback c1 h1
    have e2 := hback c2 h2
    rw [heq] at e1
    omega

/-- C11 at the default colours: background `0xFFFFFF`, foreground `0x000000`. -/
theorem C11_palette_entries_split_the_colour_witness :
    (png_plte defaultParams)[0]? = some { red := 255, green := 255, blue := 255 } ∧
      (png_plte defaultParams)[1]? = some { red := 0, green := 0, blue := 0 } :=
  ⟨(C11_palette_entries_split_the_colour defaultParams 0xFFFFFF 0 rfl rfl (by decide)
      (by decide)).2.1,
    (C11_palette_entries_split_the_colour defaultParams 0xFFFFFF 0 rfl rfl (by decide)
      (by decide)).2.2.1⟩

/-! ## Rasterizer: buffer independence and pixel packing -/

theorem cellPixel_zero_or_128 (code : QRcode) (params : Qrc_Params) (n k : Nat) :
    cellPixel code params n k = 0 ∨ cellPixel code params n k = 128 := by
  unfold cellPixel
  split
  · exact Or.inl rfl
  · rw [shift7_byte]
    split
    · exact Or.inr rfl
    · exact Or.inl rfl

/-- C12: for a matrix of width `W ≥ 1`, margin in [0,10] and dot size in [1,50], two runs of
the `EncodePNG` row loop hand `png_write_row` the same rows, whatever the freshly allocated
buffer holds at the start of either run; and each logical row written by the `x` loop is
the same whatever the buffer held before, so nothing of a previous logical row (or of the
allocation) survives in an emitted row. -/
theorem C12_raster_ignores_buffer_contents (code : QRcode) (params : Qrc_Params)
    (W m ds : Nat)
    (hW : code.width = W) (hm : params.margin = m) (hds : params.dot_size = ds)
    (_hW1 : 1 ≤ W) (_hm10 : m ≤ 10) (hds1 : 1 ≤ ds) (_hds50 : ds ≤ 50)
    (hdata : code.data.length = W * W) :
    (∀ junk1 junk2 : Nat → Nat, ∃ rows,
      rasterRows code params junk1 = Except.ok rows ∧
      rasterRows code params junk2 = Except.ok rows) ∧
    (∀ (n : Nat) (row1 row2 : List Nat), row1.length = (W + 2 * m) * ds →
      row2.length = (W + 2 * m) * ds → ∃ r,
        fillRow code params ((n : Int) - m) row1 = Except.ok r ∧
        fillRow code params ((n : Int) - m) row2 = Except.ok r) := by
  constructor
  · intro junk1 junk2
    exact ⟨rasterSpec code params,
      rasterRows_eq_nat code params junk1 W m ds hW hm hds hds1 hdata,
      rasterRows_eq_nat code params junk2 W m ds hW hm hds hds1 hdata⟩
  · intro n row1 row2 h1 h2
    exact ⟨fullRow code params ((W + 2 * m) * ds) n,
      fillRow_eq code params W m ds hW hm hds hds1 hdata n row1 h1,
      fillRow_eq code params W m ds hW hm hds hds1 hdata n row2 h2⟩

/-- C12 at the all-dark 21 x 21 matrix with the default parameters: a buffer full of 7s and
a buffer full of 200s give the same rows. -/
theorem C12_raster_ignores_buffer_contents_witness :
    ∃ rows, rasterRows darkCode defaultParams (fun _ => 7) = Except.ok rows ∧
      rasterRows darkCode defaultParams (fun _ => 200) = Except.ok rows :=
  (C12_raster_ignores_buffer_contents darkCode defaultParams 21 4 3 rfl rfl rfl (by decide)
    (by decide) (by decide) (by decide) (List.length_replicate 441 1)).1
    (fun _ => 7) (fun _ => 200)

/-- C13: for a matrix of width `W ≥ 1`, margin in [0,10] and dot size in [1,50], the byte
`EncodePNG` writes for an interior pixel over the cell byte `c` is `c << 7` truncated to
eight bits, which is `128 * (c mod 2)`: the low bit of `c` moved to the top bit, the other
bits dropped; it is non-zero exactly when the low bit is 1; and every byte of every emitted
row is 0 or 128. -/
theorem C13_row_byte_is_low_bit_in_top_position (code : QRcode) (params : Qrc_Params)
    (junk : Nat → Nat) (W m ds : Nat)
    (hW : code.width = W) (hm : params.margin = m) (hds : params.dot_size = ds)
    (_hW1 : 1 ≤ W) (_hm10 : m ≤ 10) (hds1 : 1 ≤ ds) (_hds50 : ds ≤ 50)
    (hdata : code.data.length = W * W) :
    ∃ rows, rasterRows code params junk = Except.ok rows ∧
      (∀ px py : Nat, m ≤ px / ds → px / ds - m < W → m ≤ py / ds → py / ds - m < W →
        ∃ c, code.data[(py / ds - m) * W + (px / ds - m)]? = some c ∧
          pixelAt rows px py = some ((c <<< 7) % 256) ∧
          (c <<< 7) % 256 = 128 * (c % 2) ∧
          ((c <<< 7) % 256 ≠ 0 ↔ c % 2 = 1)) ∧
      (∀ r, r ∈ rows → ∀ v, v ∈ r → v = 0 ∨ v = 128) := by
  refine ⟨rasterSpec code params,
    rasterRows_eq_nat code params junk W m ds hW hm hds hds1 hdata, ?_, ?_⟩
  · intro px py h1 h2 h3 h4
    obtain ⟨c, hc, hv⟩ := cellPixel_inner code params W m hW hm hdata (py / ds) (px / ds)
      h3 (by omega) h1 (by omega)
    refine ⟨c, hc, ?_, ?_, ?_⟩
    · rw [pixelAt_rasterSpec code params W m ds hW hm hds px py
        (lt_mul_of_div_lt_nat px _ ds hds1 (by omega))
        (lt_mul_of_div_lt_nat py _ ds hds1 (by omega)), hv]
    · rw [shift7_byte]
      split <;> omega
    · rw [shift7_byte]
      split <;> omega
  · intro r hr v hv
    unfold rasterSpec at hr
    obtain ⟨py, _, rfl⟩ := List.mem_map.mp hr
    unfold fullRow at hv
    obtain ⟨px, _, rfl⟩ := List.mem_map.mp hv
    exact cellPixel_zero_or_128 code params _ _

/-- C13 at the all-dark 21 x 21 matrix with the default parameters: every row byte is 0 or
128. -/
theorem C13_row_byte_is_low_bit_in_top_position_witness :
    ∃ rows, rasterRows darkCode defaultParams (fun _ => 7) = Except.ok rows ∧
      (∀ r, r ∈ rows → ∀ v, v ∈ r → v = 0 ∨ v = 128) := by
  obtain ⟨rows, h1, _, h3⟩ := C13_row_byte_is_low_bit_in_top_position darkCode defaultParams
    (fun _ => 7) 21 4 3 rfl rfl rfl (by decide) (by decide) (by decide) (by decide)
    (List.length_replicate 441 1)
  exact ⟨rows, h1, h3⟩

/-! ## Index safety of the raster loops -/

theorem pixelStepLogged_eq (code : QRcode) (params : Qrc_Params) (W m ds : Nat)
    (hW : code.width = W) (hm : params.margin = m) (hds : params.dot_size = ds)
    (hds1 : 1 ≤ ds) (hdata : code.data.length = W * W)
    (n k d : Nat) (hk : k < W + 2 * m) (hd : d < ds)
    (row : List Nat) (rs : List Round) (hrow : row.length = (W + 2 * m) * ds) :
    pixelStepLogged code params ((n : Int) - m) ((k : Int) * ds - m * ds) d
        { row := row, rounds := rs }
      = Except.ok
        { row := row.set (k * ds + d) (cellPixel code params n k)
          rounds := rs ++ [{ y := (n : Int) - m, x := (k : Int) * ds - m * ds, d := (d : Int) }] } := by
  unfold pixelStepLogged
  simp only
  rw [pixelStep_eq code params W m ds hW hm hds hds1 hdata n k d hk hd row hrow]

theorem dotLoopLogged_eq (code : QRcode) (params : Qrc_Params) (W m ds : Nat)
    (hW : code.width = W) (hm : params.margin = m) (hds : params.dot_size = ds)
    (hds1 : 1 ≤ ds) (hdata : code.data.length = W * W)
    (n k : Nat) (hk : k < W + 2 * m) (old : List Nat) (rs : List Round) :
    dotLoopLogged code params ((n : Int) - m) ((k : Int) * ds - m * ds)
        { row := partialRow code params ((W + 2 * m) * ds) n (k * ds) old, rounds := rs }
      = Except.ok
        { row := partialRow code params ((W + 2 * m) * ds) n ((k + 1) * ds) old
          rounds := rs ++ roundsOfDot m ds n k } := by
  unfold dotLoopLogged
  obtain ⟨t, ht, hI⟩ := forLoop_rounds
    (fun d s => pixelStepLogged code params ((n : Int) - m) ((k : Int) * ds - m * ds) d s)
    0 params.dot_size 1 ds
    { row := partialRow code params ((W + 2 * m) * ds) n (k * ds) old, rounds := rs }
    (fun d s => s.row = partialRow code params ((W + 2 * m) * ds) n (k * ds + d) old ∧
      s.rounds = rs ++ (List.range d).map fun (j : Nat) =>
        ({ y := (n : Int) - m, x := (k : Int) * ds - m * ds, d := (j : Int) } : Round))
    (by rw [hds]; simp)
    (fun d hd => by rw [hds]; simpa using hd)
    (by rw [hds]; simp)
    ⟨rfl, by simp⟩
    (fun d s hd hs => by
      obtain ⟨row, rounds⟩ := s
      obtain ⟨h1, h2⟩ := hs
      simp only at h1 h2
      subst h1 h2
      refine ⟨{ row := (partialRow code params ((W + 2 * m) * ds) n (k * ds + d) old).set
                  (k * ds + d) (cellPixel code params n k)
                rounds := (rs ++ (List.range d).map fun (j : Nat) =>
                  ({ y := (n : Int) - m, x := (k : Int) * ds - m * ds, d := (j : Int) } : Round))
                  ++ [{ y := (n : Int) - m, x := (k : Int) * ds - m * ds, d := (d : Int) }] },
        ?_, ?_⟩
      · simp only [zero_add, mul_one]
        exact pixelStepLogged_eq code params W m ds hW hm hds hds1 hdata n k d hk hd _ _
          (partialRow_length _ _ _ _ _ _)
      · have hlt : k * ds + d < (W + 2 * m) * ds := by
          have : (k + 1) * ds ≤ (W + 2 * m) * ds := Nat.mul_le_mul_right ds (by omega)
          rw [Nat.add_mul] at this
          omega
        have := partialRow_set code params ((W + 2 * m) * ds) n (k * ds + d) old hlt
        rw [hds, Int.toNat_ofNat, mul_add_div_self k ds d hd] at this
        refine ⟨?_, ?_⟩
        · show List.set _ _ _ = _
          rw [this, Nat.add_assoc]
        · show _ ++ [_] = _
          rw [List.range_succ, List.map_append, List.map_singleton, List.append_assoc])
  rw [ht]
  obtain ⟨row, rounds⟩ := t
  obtain ⟨h1, h2⟩ := hI
  simp only at h1 h2
  rw [h1, h2, show k * ds + ds = (k + 1) * ds from (Nat.succ_mul k ds).symm]
  rfl

theorem fillRowLogged_eq (code : QRcode) (params : Qrc_Params) (W m ds : Nat)
    (hW : code.width = W) (hm : params.margin = m) (hds : params.dot_size = ds)
    (hds1 : 1 ≤ ds) (hdata : code.data.length = W * W)
    (n : Nat) (row : List Nat) (rs : List Round) (hrow : row.length = (W + 2 * m) * ds) :
    fillRowLogged code params ((n : Int) - m) { row := row, rounds := rs }
      = Except.ok
        { row := fullRow code params ((W + 2 * m) * ds) n
          rounds := rs ++ roundsOfRow W m ds n } := by
  unfold fillRowLogged
  have hds0 : (0 : Int) < ds := by exact_mod_cast hds1
  obtain ⟨t, ht, hI⟩ := forLoop_rounds
    (fun x s => dotLoopLogged code params ((n : Int) - m) x s)
    (-(params.margin * params.dot_size)) ((code.width + params.margin) * params.dot_size)
    params.dot_size (W + 2 * m) { row := row, rounds := rs }
    (fun k s => s.row = partialRow code params ((W + 2 * m) * ds) n (k * ds) row ∧
      s.rounds = rs ++ (List.range k).flatMap (roundsOfDot m ds n))
    (by
      rw [hW, hm, hds]
      have : ((W + 2 * m : Nat) : Int) * 1 ≤ ((W + 2 * m : Nat) : Int) * ds :=
        mul_le_mul_of_nonneg_left (by omega) (Int.natCast_nonneg _)
      push_cast at this ⊢
      linarith)
    (fun k hk => by
      rw [hW, hm, hds]
      have : ((k : Int) - m) * ds < ((W : Int) + m) * ds :=
        mul_lt_mul_of_pos_right (by omega) hds0
      linarith)
    (by
      rw [hW, hm, hds]
      push_cast
      intro hcon
      linarith)
    ⟨by
      show row = partialRow code params ((W + 2 * m) * ds) n (0 * ds) row
      rw [Nat.zero_mul, ← hrow]
      exact (partialRow_zero code params n row).symm, by simp⟩
    (fun k s hk hs => by
      obtain ⟨row1, rounds1⟩ := s
      obtain ⟨h1, h2⟩ := hs
      simp only at h1 h2
      subst h1 h2
      have hx : -(params.margin * params.dot_size) + (k : Int) * params.dot_size
          = (k : Int) * ds - m * ds := by
        rw [hm, hds]; ring
      refine ⟨{ row := partialRow code params ((W + 2 * m) * ds) n ((k + 1) * ds) row
                rounds := (rs ++ (List.range k).flatMap (roundsOfDot m ds n))
                  ++ roundsOfDot m ds n k }, ?_, rfl, ?_⟩
      · rw [hx]
        exact dotLoopLogged_eq code params W m ds hW hm hds hds1 hdata n k hk row _
      · show _ ++ roundsOfDot m ds n k = _
        rw [List.range_succ, List.flatMap_append, List.flatMap_singleton, List.append_assoc])
  rw [ht]
  obtain ⟨row1, rounds1⟩ := t
  obtain ⟨h1, h2⟩ := hI
  simp only at h1 h2
  rw [h1, h2, partialRow_full]
  rfl

/-- The logged loops in closed form. -/
theorem rasterRounds_eq (code : QRcode) (params : Qrc_Params) (junk : Nat → Nat)
    (W m ds : Nat) (hW : code.width = W) (hm : params.margin = m)
    (hds : params.dot_size = ds) (hds1 : 1 ≤ ds) (hdata : code.data.length = W * W) :
    rasterRounds code params junk = Except.ok (roundsOfRaster W m ds) := by
  have hS := imageSide_toNat code params W m ds hW hm hds
  unfold rasterRounds
  obtain ⟨t, ht, hI⟩ := forLoop_rounds (fun y s => fillRowLogged code params y s)
    (-params.margin) (code.width + params.margin) 1 (W + 2 * m)
    { row := newRow (imageSide code params) junk, rounds := [] }
    (fun n st => st.row.length = (W + 2 * m) * ds ∧
      st.rounds = (List.range n).flatMap (roundsOfRow W m ds))
    (by rw [hW, hm]; push_cast; linarith)
    (fun n hn => by rw [hW, hm]; omega)
    (by rw [hW, hm]; push_cast; intro hcon; linarith)
    ⟨by simp [newRow, hS], by simp⟩
    (fun n st hn hst => by
      obtain ⟨row, rounds⟩ := st
      obtain ⟨h1, h2⟩ := hst
      simp only at h1 h2
      subst h2
      have hy : -params.margin + (n : Int) * 1 = (n : Int) - m := by rw [hm]; ring
      refine ⟨{ row := fullRow code params ((W + 2 * m) * ds) n
                rounds := (List.range n).flatMap (roundsOfRow W m ds) ++ roundsOfRow W m ds n },
        ?_, ?_, ?_⟩
      · rw [hy]
        exact fillRowLogged_eq code params W m ds hW hm hds hds1 hdata n row _ h1
      · simp [fullRow]
      · show _ ++ roundsOfRow W m ds n = _
        rw [List.range_succ, List.flatMap_append, List.flatMap_singleton])
  rw [ht]
  simp only
  rw [hI.2]
  rfl

theorem mem_roundsOfRaster (W m ds : Nat) (r : Round) (h : r ∈ roundsOfRaster W m ds) :
    ∃ n k d : Nat, n < W + 2 * m ∧ k < W + 2 * m ∧ d < ds ∧
      r = { y := (n : Int) - m, x := (k : Int) * ds - m * ds, d := (d : Int) } := by
  unfold roundsOfRaster at h
  obtain ⟨n, hn, h1⟩ := List.mem_flatMap.mp h
  unfold roundsOfRow at h1
  obtain ⟨k, hk, h2⟩ := List.mem_flatMap.mp h1
  unfold roundsOfDot at h2
  obtain ⟨d, hd, h3⟩ := List.mem_map.mp h2
  exact ⟨n, k, d, List.mem_range.mp hn, List.mem_range.mp hk, List.mem_range.mp hd, h3.symm⟩

theorem range_blocks (ds : Nat) :
    ∀ N : Nat, (List.range N).flatMap (fun k => (List.range ds).map fun d => k * ds + d)
      = List.range (N * ds) := by
  intro N
  induction N with
  | zero => simp
  | succ N ih =>
    rw [List.range_succ, List.flatMap_append, List.flatMap_singleton, ih, Nat.succ_mul,
      List.range_add]

theorem writeIndex_roundsOfRow (params : Qrc_Params) (W m ds n : Nat)
    (hm : params.margin = m) (hds : params.dot_size = ds) :
    (roundsOfRow W m ds n).map (Round.writeIndex params)
      = (List.range ((W + 2 * m) * ds)).map fun (j : Nat) => (j : Int) := by
  rw [← range_blocks ds (W + 2 * m)]
  unfold roundsOfRow roundsOfDot
  rw [List.map_flatMap, List.map_flatMap]
  congr 1
  funext k
  rw [List.map_map, List.map_map]
  apply List.map_congr_left
  intro d _
  simp only [Function.comp, Round.writeIndex, hm, hds]
  push_cast
  ring

/-- C15: for a matrix of width `W ≥ 1`, margin in [0,10] and dot size in [1,50], in every
round `(y, x, d)` of the `EncodePNG` loops the store index `x + margin * dotSize + d` lies in
`[0, (W + 2 * margin) * dotSize)`; on the branch that reads the matrix the load index
`y * W + x / dotSize` lies in `[0, W * W)`, `x` being a non-negative multiple of `dotSize`,
so that the truncating division is exact; and within one logical row the store indices
are `0, 1, .., (W + 2 * margin) * dotSize - 1`, each written exactly once. -/
theorem C15_raster_indices_stay_in_bounds (code : QRcode) (params : Qrc_Params)
    (junk : Nat → Nat) (W m ds : Nat)
    (hW : code.width = W) (hm : params.margin = m) (hds : params.dot_size = ds)
    (_hW1 : 1 ≤ W) (_hm10 : m ≤ 10) (hds1 : 1 ≤ ds) (_hds50 : ds ≤ 50)
    (hdata : code.data.length = W * W) :
    ∃ rounds, rasterRounds code params junk = Except.ok rounds ∧
      (∀ r, r ∈ rounds →
        0 ≤ r.writeIndex params ∧ r.writeIndex params < (((W + 2 * m) * ds : Nat) : Int)) ∧
      (∀ r, r ∈ rounds → ¬ r.onMargin code params →
        0 ≤ r.readIndex code params ∧ r.readIndex code params < ((W * W : Nat) : Int) ∧
        0 ≤ r.x ∧ r.x % ds = 0 ∧ Int.tdiv r.x ds * ds = r.x) ∧
      (∀ (n : Nat) (row : List Nat), row.length = (W + 2 * m) * ds →
        ∃ st, fillRowLogged code params ((n : Int) - m) { row := row, rounds := [] }
            = Except.ok st ∧
          st.rounds.map (Round.writeIndex params)
            = (List.range ((W + 2 * m) * ds)).map (fun (j : Nat) => (j : Int)) ∧
          ∀ j : Nat, j < (W + 2 * m) * ds →
            (st.rounds.map (Round.writeIndex params)).count (j : Int) = 1) := by
  have hds0 : (0 : Int) < ds := by exact_mod_cast hds1
  refine ⟨roundsOfRaster W m ds,
    rasterRounds_eq code params junk W m ds hW hm hds hds1 hdata, ?_, ?_, ?_⟩
  · intro r hr
    obtain ⟨n, k, d, _, hk, hd, rfl⟩ := mem_roundsOfRaster W m ds r hr
    have hidx : Round.writeIndex params
        { y := (n : Int) - m, x := (k : Int) * ds - m * ds, d := (d : Int) }
        = ((k * ds + d : Nat) : Int) := by
      simp only [Round.writeIndex, hm, hds]
      push_cast
      ring
    have hlt : k * ds + d < (W + 2 * m) * ds := by
      have : (k + 1) * ds ≤ (W + 2 * m) * ds := Nat.mul_le_mul_right ds (by omega)
      rw [Nat.add_mul] at this
      omega
    rw [hidx]
    exact ⟨Int.natCast_nonneg _, by exact_mod_cast hlt⟩
  · intro r hr hin
    obtain ⟨n, k, d, _, _, _, rfl⟩ := mem_roundsOfRaster W m ds r hr
    have hx : (k : Int) * ds - m * ds = ((k : Int) - m) * ds := by ring
    simp only [Round.onMargin, hW, hds, not_or, not_lt, hx] at hin
    obtain ⟨h1, h2, h3, h4⟩ := hin
    have hk0 : (0 : Int) ≤ (k : Int) - m := by
      by_contra hc
      push_neg at hc
      have := mul_neg_of_neg_of_pos hc hds0
      linarith
    have hk1 : (k : Int) - m ≤ (W : Int) - 1 := by
      by_contra hc
      push_neg at hc
      have := mul_lt_mul_of_pos_right hc hds0
      linarith
    obtain ⟨a, ha⟩ : ∃ a : Nat, (n : Int) - m = a := ⟨n - m, by omega⟩
    obtain ⟨b, hb⟩ : ∃ b : Nat, (k : Int) - m = b := ⟨k - m, by omega⟩
    have haW : a < W := by omega
    have hbW : b < W := by omega
    have hin : a * W + b < W * W := by
      have : (a + 1) * W ≤ W * W := Nat.mul_le_mul_right W (by omega)
      rw [Nat.add_mul] at this
      omega
    have hdiv : Int.tdiv (((k : Int) - m) * ds) ds = (k : Int) - m :=
      Int.mul_tdiv_cancel _ (by omega)
    simp only [Round.readIndex, hW, hds, hx, hdiv]
    refine ⟨?_, ?_, mul_nonneg hk0 hds0.le, Int.mul_emod_left _ _, trivial⟩
    · rw [ha, hb]
      positivity
    · rw [ha, hb]
      exact_mod_cast hin
  · intro n row hrow
    refine ⟨_, fillRowLogged_eq code params W m ds hW hm hds hds1 hdata n row [] hrow, ?_, ?_⟩
    · simp only [List.nil_append]
      exact writeIndex_roundsOfRow params W m ds n hm hds
    · intro j hj
      simp only [List.nil_append]
      rw [writeIndex_roundsOfRow params W m ds n hm hds]
      apply List.count_eq_one_of_mem
      · exact (List.nodup_range _).map (fun a b h => by exact_mod_cast h)
      · exact List.mem_map.mpr ⟨j, List.mem_range.mpr hj, rfl⟩

/-- C15 at the all-dark 21 x 21 matrix with the default margin 4 and dot size 3: every store
index is inside the 87 bytes of the buffer. -/
theorem C15_raster_indices_stay_in_bounds_witness :
    ∃ rounds, rasterRounds darkCode defaultParams (fun _ => 7) = Except.ok rounds ∧
      (∀ r, r ∈ rounds → 0 ≤ r.writeIndex defaultParams ∧
        r.writeIndex defaultParams < (((21 + 2 * 4) * 3 : Nat) : Int)) := by
  obtain ⟨rounds, h1, h2, _⟩ := C15_raster_indices_stay_in_bounds darkCode defaultParams
    (fun _ => 7) 21 4 3 rfl rfl rfl (by decide) (by decide) (by decide) (by decide)
    (List.length_replicate 441 1)
  exact ⟨rounds, h1, h2⟩

/-! ## The order of the checks -/

theorem outcome_nil {α : Type} (a : α) : outcome [] a = Except.ok a := rfl

theorem outcome_cons_true {α : Type} (e : JsError) (l : List (Bool × JsError)) (a : α) :
    outcome ((true, e) :: l) a = Except.error e := rfl

theorem outcome_cons_false {α : Type} (e : JsError) (l : List (Bool × JsError)) (a : α) :
    outcome ((false, e) :: l) a = outcome l a := rfl

theorem outcome_append {α β : Type} (l1 l2 : List (Bool × JsError)) (a : α) (b : β)
    (f : α → Except JsError β) (h : f a = outcome l2 b) :
    (outcome l1 a).bind f = outcome (l1 ++ l2) b := by
  induction l1 with
  | nil => simpa [outcome_nil, Except.bind] using h
  | cons c l ih =>
    obtain ⟨v, e⟩ := c
    cases v with
    | true => rfl
    | false => simpa [outcome_cons_false] using ih

theorem checkVersion_outcome (paramsObj : Value) (p : Qrc_Params) :
    checkVersion paramsObj p
      = outcome
        [typeCheck Value.IsInt32 (paramsObj.Get "version") "Wrong type for version",
          rangeCheck 1 40 (paramsObj.Get "version") "Version out of range"]
        { p with version := (paramsObj.Get "version").orDefault p.version } := by
  unfold checkVersion typeCheck rangeCheck Value.orDefault Value.present QRSPEC_VERSION_MAX
  generalize paramsObj.Get "version" = v
  cases v with
  | int n =>
    simp only [Value.IsUndefined, Value.IsInt32, Value.IntegerValue]
    by_cases h1 : -2147483648 ≤ n ∧ n ≤ 2147483647
    · by_cases h2 : n < 1 ∨ n > 40
      · rcases h2 with h2 | h2 <;> simp [h1, h2, outcome, firstViolation]
      · have h3 : ¬ n < 1 := fun h => h2 (Or.inl h)
        have h4 : ¬ 40 < n := fun h => h2 (Or.inr h)
        simp [h1, h2, h3, h4, outcome, firstViolation]
    · simp [h1, outcome, firstViolation]
  | _ => simp [Value.IsUndefined, Value.IsInt32, outcome, firstViolation]

theorem checkEcLevel_outcome (paramsObj : Value) (data : List Nat) (p : Qrc_Params) :
    checkEcLevel paramsObj data p
      = outcome
        [typeCheck Value.IsInt32 (paramsObj.Get "ecLevel") "Wrong type for EC level",
          rangeCheck 0 3 (paramsObj.Get "ecLevel") "EC level out of range",
          ((paramsObj.Get "ecLevel").present &&
              decide (maxSize (paramsObj.Get "ecLevel").IntegerValue < data.length),
            JsError.RangeError "Source string length out of range")]
        { p with ec_level := (paramsObj.Get "ecLevel").orDefault p.ec_level } := by
  unfold checkEcLevel typeCheck rangeCheck Value.orDefault Value.present QR_ECLEVEL_L
    QR_ECLEVEL_H
  generalize paramsObj.Get "ecLevel" = v
  cases v with
  | int n =>
    simp only [Value.IsUndefined, Value.IsInt32, Value.IntegerValue]
    by_cases h1 : -2147483648 ≤ n ∧ n ≤ 2147483647
    · by_cases h2 : n < 0 ∨ n > 3
      · rcases h2 with h2 | h2 <;> simp [h1, h2, outcome, firstViolation]
      · have h3 : ¬ n < 0 := fun h => h2 (Or.inl h)
        have h4 : ¬ 3 < n := fun h => h2 (Or.inr h)
        by_cases h5 : (data.length : Int) > maxSize n
        · have h6 : maxSize n < data.length := by exact_mod_cast h5
          simp [h1, h2, h3, h4, h5, h6, outcome, firstViolation]
        · have h6 : ¬ maxSize n < data.length := fun h => h5 (by exact_mod_cast h)
          simp [h1, h2, h3, h4, h5, h6, outcome, firstViolation]
    · simp [h1, outcome, firstViolation]
  | _ => simp [Value.IsUndefined, Value.IsInt32, outcome, firstViolation]

theorem checkMode_outcome (paramsObj : Value) (p : Qrc_Params) :
    checkMode paramsObj p
      = outcome
        [typeCheck Value.IsInt32 (paramsObj.Get "mode") "Wrong type for mode",
          rangeCheck 0 3 (paramsObj.Get "mode") "Mode out of range"]
        { p with mode := (paramsObj.Get "mode").orDefault p.mode } := by
  unfold checkMode typeCheck rangeCheck Value.orDefault Value.present QR_MODE_NUM QR_MODE_KANJI
  generalize paramsObj.Get "mode" = v
  cases v with
  | int n =>
    simp only [Value.IsUndefined, Value.IsInt32, Value.IntegerValue]
    by_cases h1 : -2147483648 ≤ n ∧ n ≤ 2147483647
    · by_cases h2 : n < 0 ∨ n > 3
      · rcases h2 with h2 | h2 <;> simp [h1, h2, outcome, firstViolation]
      · have h3 : ¬ n < 0 := fun h => h2 (Or.inl h)
        have h4 : ¬ 3 < n := fun h => h2 (Or.inr h)
        simp [h1, h2, h3, h4, outcome, firstViolation]
    · simp [h1, outcome, firstViolation]
  | _ => simp [Value.IsUndefined, Value.IsInt32, outcome, firstViolation]

theorem checkDotSize_outcome (paramsObj : Value) (p : Qrc_Params) :
    checkDotSize paramsObj p
      = outcome
        [typeCheck Value.IsInt32 (paramsObj.Get "dotSize") "Wrong type for dot size",
          rangeCheck 1 50 (paramsObj.Get "dotSize") "Dot size out of range"]
        { p with dot_size := (paramsObj.Get "dotSize").orDefault p.dot_size } := by
  unfold checkDotSize typeCheck rangeCheck Value.orDefault Value.present
  generalize paramsObj.Get "dotSize" = v
  cases v with
  | int n =>
    simp only [Value.IsUndefined, Value.IsInt32, Value.IntegerValue]
    by_cases h1 : -2147483648 ≤ n ∧ n ≤ 2147483647
    · by_cases h2 : n < 1 ∨ n > 50
      · rcases h2 with h2 | h2 <;> simp [h1, h2, outcome, firstViolation]
      · have h3 : ¬ n < 1 := fun h => h2 (Or.inl h)
        have h4 : ¬ 50 < n := fun h => h2 (Or.inr h)
        simp [h1, h2, h3, h4, outcome, firstViolation]
    · simp [h1, outcome, firstViolation]
  | _ => simp [Value.IsUndefined, Value.IsInt32, outcome, firstViolation]

theorem checkMargin_outcome (paramsObj : Value) (p : Qrc_Params) :
    checkMargin paramsObj p
      = outcome
        [typeCheck Value.IsInt32 (paramsObj.Get "margin") "Wrong type for margin size",
          rangeCheck 0 10 (paramsObj.Get "margin") "Margin size out of range"]
        { p with margin := (paramsObj.Get "margin").orDefault p.margin } := by
  unfold checkMargin typeCheck rangeCheck Value.orDefault Value.present
  generalize paramsObj.Get "margin" = v
  cases v with
  | int n =>
    simp only [Value.IsUndefined, Value.IsInt32, Value.IntegerValue]
    by_cases h1 : -2147483648 ≤ n ∧ n ≤ 2147483647
    · by_cases h2 : n < 0 ∨ n > 10
      · rcases h2 with h2 | h2 <;> simp [h1, h2, outcome, firstViolation]
      · have h3 : ¬ n < 0 := fun h => h2 (Or.inl h)
        have h4 : ¬ 10 < n := fun h => h2 (Or.inr h)
        simp [h1, h2, h3, h4, outcome, firstViolation]
    · simp [h1, outcome, firstViolation]
  | _ => simp [Value.IsUndefined, Value.IsInt32, outcome, firstViolation]

theorem checkFgColor_outcome (paramsObj : Value) (p : Qrc_Params) :
    checkFgColor paramsObj p
      = outcome
        [typeCheck Value.IsUint32 (paramsObj.Get "foregroundColor")
            "Wrong type for foreground color",
          rangeCheck 0 16777215 (paramsObj.Get "foregroundColor")
            "Foreground color out of range"]
        { p with
          foreground_color :=
            (paramsObj.Get "foregroundColor").orDefault p.foreground_color } := by
  unfold checkFgColor typeCheck rangeCheck Value.orDefault Value.present WHITE
  generalize paramsObj.Get "foregroundColor" = v
  cases v with
  | int n =>
    simp only [Value.IsUndefined, Value.IsUint32, Value.IntegerValue]
    by_cases h1 : 0 ≤ n ∧ n ≤ 4294967295
    · by_cases h2 : n < 0 ∨ n ≥ 16777216
      · have h3 : ¬ n < 0 := by omega
        have h4 : 16777215 < n := by omega
        simp [h1, h2, h3, h4, outcome, firstViolation]
        omega
      · have h3 : ¬ n < 0 := fun h => h2 (Or.inl h)
        have h4 : ¬ 16777215 < n := fun h => h2 (Or.inr (by omega))
        simp [h1, h2, h3, h4, outcome, firstViolation]
        omega
    · simp [h1, outcome, firstViolation]
  | _ => simp [Value.IsUndefined, Value.IsUint32, outcome, firstViolation]

theorem checkBgColor_outcome (paramsObj : Value) (p : Qrc_Params) :
    checkBgColor paramsObj p
      = outcome
        [typeCheck Value.IsUint32 (paramsObj.Get "backgroundColor")
            "Wrong type for background color",
          rangeCheck 0 16777215 (paramsObj.Get "backgroundColor")
            "Background color out of range"]
        { p with
          background_color :=
            (paramsObj.Get "backgroundColor").orDefault p.background_color } := by
  unfold checkBgColor typeCheck rangeCheck Value.orDefault Value.present WHITE
  generalize paramsObj.Get "backgroundColor" = v
  cases v with
  | int n =>
    simp only [Value.IsUndefined, Value.IsUint32, Value.IntegerValue]
    by_cases h1 : 0 ≤ n ∧ n ≤ 4294967295
    · by_cases h2 : n < 0 ∨ n ≥ 16777216
      · have h3 : ¬ n < 0 := by omega
        have h4 : 16777215 < n := by omega
        simp [h1, h2, h3, h4, outcome, firstViolation]
        omega
      · have h3 : ¬ n < 0 := fun h => h2 (Or.inl h)
        have h4 : ¬ 16777215 < n := fun h => h2 (Or.inr (by omega))
        simp [h1, h2, h3, h4, outcome, firstViolation]
        omega
    · simp [h1, outcome, firstViolation]
  | _ => simp [Value.IsUndefined, Value.IsUint32, outcome, firstViolation]

/-- The seven option blocks do what the ordered constraints on the options prescribe. -/
theorem checkOptions_outcome (paramsObj : Value) (data : List Nat) (p : Qrc_Params) :
    checkOptions paramsObj data p
      = outcome (optionViolations data paramsObj)
        { data := p.data
          ec_level := (paramsObj.Get "ecLevel").orDefault p.ec_level
          mode := (paramsObj.Get "mode").orDefault p.mode
          version := (paramsObj.Get "version").orDefault p.version
          dot_size := (paramsObj.Get "dotSize").orDefault p.dot_size
          margin := (paramsObj.Get "margin").orDefault p.margin
          foreground_color := (paramsObj.Get "foregroundColor").orDefault p.foreground_color
          background_color :=
            (paramsObj.Get "backgroundColor").orDefault p.background_color } := by
  unfold checkOptions
  rw [checkVersion_outcome]
  refine outcome_append _ _ _ _ _ ?_
  rw [checkEcLevel_outcome]
  refine outcome_append _ _ _ _ _ ?_
  rw [checkMode_outcome]
  refine outcome_append _ _ _ _ _ ?_
  rw [checkDotSize_outcome]
  refine outcome_append _ _ _ _ _ ?_
  rw [checkMargin_outcome]
  refine outcome_append _ _ _ _ _ ?_
  rw [checkFgColor_outcome]
  refine outcome_append _ _ _ _ _ ?_
  rw [checkBgColor_outcome]

/-- `ValidateArgs` does what the ordered constraints prescribe: the error of the first
violated constraint, or the requested record when none is violated. -/
theorem ValidateArgs_outcome (args : List Value) :
    ValidateArgs args
      = outcome (violations args)
        (requested (sourceString (args.headD Value.undefined))
          (args.getD 1 Value.undefined)) := by
  have hmax : maxSize 0 = 2938 := rfl
  cases args with
  | nil => rfl
  | cons text rest =>
    cases text with
    | string utf8 =>
      by_cases hlen : 1 ≤ (sourceString (Value.string utf8)).length ∧
          (sourceString (Value.string utf8)).length ≤ 2938
      · have h1 : ¬ (sourceString (Value.string utf8)).length < 1 := by omega
        have h2 : ¬ 2938 < (sourceString (Value.string utf8)).length := by omega
        cases rest with
        | nil =>
          unfold ValidateArgs
          simp only [Value.IsString, hmax]
          rw [if_neg (by simp), if_neg (by omega)]
          simp [violations, optionViolations, typeCheck, rangeCheck, Value.present, Value.Get,
            Value.IsUndefined, Value.IsString, h1, h2, outcome, firstViolation, requested,
            Value.orDefault, Qrc_Params.new, QR_ECLEVEL_L, QR_MODE_8]
        | cons paramsObj more =>
          rw [ValidateArgs_more]
          cases paramsObj with
          | object get =>
            rw [ValidateArgs_options utf8 get hlen, checkOptions_outcome]
            simp only [violations, List.headD_cons, List.getD_cons_succ, List.getD_cons_zero,
              Value.IsString, Value.IsObject, List.length_cons, h1, h2, decide_False,
              Bool.not_true, Bool.or_self, Bool.and_false, List.cons_append, List.nil_append,
              outcome_cons_false, Nat.lt_one_iff, Nat.add_eq_zero, and_false, one_ne_zero]
            rfl
          | undefined =>
            unfold ValidateArgs
            simp only [Value.IsString, Value.IsObject, hmax]
            rw [if_neg (by simp), if_neg (by omega), if_pos (by simp)]
            simp [violations, h1, h2, outcome, firstViolation, Value.IsString, Value.IsObject]
          | string _ =>
            unfold ValidateArgs
            simp only [Value.IsString, Value.IsObject, hmax]
            rw [if_neg (by simp), if_neg (by omega), if_pos (by simp)]
            simp [violations, h1, h2, outcome, firstViolation, Value.IsString, Value.IsObject]
          | int _ =>
            unfold ValidateArgs
            simp only [Value.IsString, Value.IsObject, hmax]
            rw [if_neg (by simp), if_neg (by omega), if_pos (by simp)]
            simp [violations, h1, h2, outcome, firstViolation, Value.IsString, Value.IsObject]
          | other =>
            unfold ValidateArgs
            simp only [Value.IsString, Value.IsObject, hmax]
            rw [if_neg (by simp), if_neg (by omega), if_pos (by simp)]
            simp [violations, h1, h2, outcome, firstViolation, Value.IsString, Value.IsObject]
      · rw [ValidateArgs_length utf8 rest (by omega)]
        have h3 : (sourceString (Value.string utf8)).length < 1 ∨
            2938 < (sourceString (Value.string utf8)).length := by omega
        rcases h3 with h3 | h3 <;>
          simp [violations, h3, outcome, firstViolation, Value.IsString]
    | undefined => simp [ValidateArgs, violations, outcome, firstViolation, Value.IsString]
    | int _ => simp [ValidateArgs, violations, outcome, firstViolation, Value.IsString]
    | object _ => simp [ValidateArgs, violations, outcome, firstViolation, Value.IsString]
    | other => simp [ValidateArgs, violations, outcome, firstViolation, Value.IsString]

theorem firstViolation_take (l : List (Bool × JsError)) (n : Nat)
    (hhit : ∃ c, c ∈ l.take n ∧ c.1 = true) :
    firstViolation l = firstViolation (l.take n) := by
  unfold firstViolation
  cases h : (l.take n).find? (fun c => c.1) with
  | none =>
    obtain ⟨c, hc, hv⟩ := hhit
    have := List.find?_eq_none.mp h c hc
    simp [hv] at this
  | some c =>
    conv_lhs => rw [← List.take_append_drop n l]
    rw [List.find?_append, h]
    rfl

theorem sourceString_replicate (n : Nat) :
    sourceString (Value.string (List.replicate n 65)) = List.replicate n 65 := by
  show List.takeWhile (fun b => b != 0) (List.replicate n 65) = List.replicate n 65
  rw [List.takeWhile_replicate]
  rfl

theorem outcome_eq_error {α : Type} (l : List (Bool × JsError)) (a : α) (e : JsError) :
    outcome l a = Except.error e ↔ firstViolation l = some e := by
  unfold outcome
  cases firstViolation l with
  | none => simp
  | some e1 => simp

/-- C14: `ValidateArgs` checks its constraints in one fixed order: the text is a string, its
length is in [1, 2938], the options are an object, then `version`, `ecLevel` (type, range,
length against the level's maximum), `mode`, `dotSize`, `margin`, `foregroundColor`,
`backgroundColor`, the type of a field before its range.  The call fails exactly when some
constraint is violated, the error is then the one of the first violated constraint and no
record is returned; two calls that agree on the constraints up to a violated one, or on
the option fields up to one with a violated constraint, end the same way, whatever the
fields checked later hold; and a 2000-byte text with `version = 99` and `ecLevel = H` fails
with the version range error. -/
theorem C14_first_violated_constraint_decides :
    (∀ args : List Value,
      (violations args).map (fun c => c.2)
        = [JsError.TypeError "No source string given",
            JsError.RangeError "Source string length out of range",
            JsError.TypeError "Second argument must be an object",
            JsError.TypeError "Wrong type for version",
            JsError.RangeError "Version out of range",
            JsError.TypeError "Wrong type for EC level",
            JsError.RangeError "EC level out of range",
            JsError.RangeError "Source string length out of range",
            JsError.TypeError "Wrong type for mode",
            JsError.RangeError "Mode out of range",
            JsError.TypeError "Wrong type for dot size",
            JsError.RangeError "Dot size out of range",
            JsError.TypeError "Wrong type for margin size",
            JsError.RangeError "Margin size out of range",
            JsError.TypeError "Wrong type for foreground color",
            JsError.RangeError "Foreground color out of range",
            JsError.TypeError "Wrong type for background color",
            JsError.RangeError "Background color out of range"]) ∧
    (∀ args : List Value,
      ValidateArgs args
        = outcome (violations args)
          (requested (sourceString (args.headD Value.undefined))
            (args.getD 1 Value.undefined))) ∧
    (∀ (args : List Value) (e : JsError),
      ValidateArgs args = Except.error e ↔ firstViolation (violations args) = some e) ∧
    (∀ (args args1 : List Value) (n : Nat),
      (violations args).take n = (violations args1).take n →
      (∃ c, c ∈ (violations args).take n ∧ c.1 = true) →
      ValidateArgs args1 = ValidateArgs args ∧ ∃ e, ValidateArgs args = Except.error e) ∧
    (∀ (text : Value) (get get1 : String → Value) (k : Nat), k ≤ 7 →
      (∀ name, name ∈ fieldOrder.take k → get name = get1 name) →
      (∃ c, c ∈ (violations [text, Value.object get]).take (checksThrough k) ∧ c.1 = true) →
      ValidateArgs [text, Value.object get1] = ValidateArgs [text, Value.object get]) ∧
    ValidateArgs [Value.string (List.replicate 2000 65),
        Value.object (fieldsOf [("version", Value.int 99), ("ecLevel", Value.int 3)])]
      = Except.error (JsError.RangeError "Version out of range") := by
  have hfix : ∀ (args args1 : List Value) (n : Nat),
      (violations args).take n = (violations args1).take n →
      (∃ c, c ∈ (violations args).take n ∧ c.1 = true) →
      ValidateArgs args1 = ValidateArgs args ∧ ∃ e, ValidateArgs args = Except.error e := by
    intro args args1 n htake hhit
    have h1 := firstViolation_take (violations args) n hhit
    have h2 := firstViolation_take (violations args1) n (by rw [← htake]; exact hhit)
    have hsome : ∃ e, firstViolation ((violations args).take n) = some e := by
      obtain ⟨c, hc, hv⟩ := hhit
      unfold firstViolation
      cases h : ((violations args).take n).find? (fun c => c.1) with
      | none =>
        have := List.find?_eq_none.mp h c hc
        simp [hv] at this
      | some c1 => exact ⟨c1.2, rfl⟩
    obtain ⟨e, he⟩ := hsome
    have e1 : ValidateArgs args = Except.error e := by
      rw [ValidateArgs_outcome, outcome_eq_error, h1, he]
    have e2 : ValidateArgs args1 = Except.error e := by
      rw [ValidateArgs_outcome, outcome_eq_error, h2, ← htake, he]
    exact ⟨by rw [e1, e2], e, e1⟩
  refine ⟨fun _ => rfl, ValidateArgs_outcome, ?_, hfix, ?_, ?_⟩
  · intro args e
    rw [ValidateArgs_outcome, outcome_eq_error]
  · intro text get get1 k hk hagree hhit
    refine (hfix [text, Value.object get] [text, Value.object get1] (checksThrough k) ?_
      hhit).1
    interval_cases k <;> simp [fieldOrder] at hagree <;>
      simp [violations, optionViolations, checksThrough, Value.Get, Value.IsObject, hagree,
        List.take]
  · rw [ValidateArgs_options _ _ (by rw [sourceString_replicate, List.length_replicate]; omega)]
    unfold checkOptions
    rw [checkVersion_range
      (Value.object (fieldsOf [("version", Value.int 99), ("ecLevel", Value.int 3)])) _
      (by decide) (Or.inr (by decide))]
    rfl

end Qrcodeine
